import Mathlib

/-!
# Shallow embedding of the VisionArk LBS (Load Balancing System) engine

This file embeds `app/backend/services/lbs_engine.py` (class `LBSEngine`) and
the entities it reads from `app/backend/models/database.py` (`Task`,
`TaskException`, `LBSDailyCache`, `SystemConfig`), and proves properties of
the embedding.

Modelling conventions:
* Python `date` values are modelled by their proleptic-Gregorian ordinal
  (`date.toordinal()`, an integer, `date(1,1,1) ↦ 1`), so `date` arithmetic
  (`d2 - d1).days` is plain integer subtraction and `date.weekday()` is
  `(n - 1) % 7`.  The civil fields `year/month/day` used by the MONTHLY rules
  are recovered with the standard civil-from-days algorithm, and
  `calendar.monthrange(y, m)[1]` is `daysInMonth`.
* Python floats are idealised as rationals `ℚ`; `round(x, n)` is modelled as
  exact round-half-to-even at `n` decimal digits (Python's documented
  behaviour, ignoring binary-representation artefacts).
* The float power `n ** beta` (a transcendental function) is kept abstract as
  a parameter `powf : ℕ → ℚ → ℚ`; every theorem quantifies over it, and
  concrete instances only evaluate it at arguments where Python's `**` is
  exact (`0 ** b = 0`, `1 ** b = 1`).
* The SQLAlchemy session is modelled as a structure of the four tables the
  engine touches, each a list in row-insertion (rowid) order; `query(...)
  .first()` is `List.find?`, `.all()` is the list itself, and range deletion
  is `List.filter`.  The autoincrement `id` column of cache rows is not
  modelled (it names rows, it never influences engine behaviour); the
  wall-clock `generated_at` column is modelled by an explicit timestamp
  argument `now` stamped on every row an expansion inserts.
* Nullable columns are `Option`; Python truthiness of a nullable integer
  (`not task.interval_days`) is `none` or `some 0`, and of a nullable date is
  just `none` (a `date` object is always truthy).
* `rule_type`, `exception_type` and `status` are stored as strings, matching
  the `Column(String)` declarations; the `str`-enum members compare equal to
  their literal values, so the dispatch in the source is string dispatch.
* An `OVERRIDE_LOAD` exception whose `override_load_value` is NULL would make
  the Python insert violate the cache's NOT-NULL constraint; the model totals
  this corner with `Option.getD 0`, and theorems that would be sensitive to
  it carry a well-formedness hypothesis instead of relying on the default.
-/

/-! ## Calendar arithmetic (Python `datetime.date` on ordinals) -/

/-- Leap year in the proleptic Gregorian calendar (`calendar.isleap`). -/
def isLeap (y : ℤ) : Bool :=
  y % 4 == 0 && (y % 100 != 0 || y % 400 == 0)

/-- `calendar.monthrange(y, m)[1]`: the number of days in month `m` of year `y`. -/
def daysInMonth (y m : ℤ) : ℤ :=
  if m == 2 then (if isLeap y then 29 else 28)
  else if m == 4 || m == 6 || m == 9 || m == 11 then 30
  else 31

/-- Civil date `(year, month, day)` of a Python date ordinal
(`date.fromordinal`), by the standard days-to-civil algorithm. -/
def civilOfOrdinal (n : ℤ) : ℤ × ℤ × ℤ :=
  let z := n - 719163 + 719468
  let era := z / 146097
  let doe := z - era * 146097
  let yoe := (doe - doe / 1460 + doe / 36524 - doe / 146096) / 365
  let y := yoe + era * 400
  let doy := doe - (365 * yoe + yoe / 4 - yoe / 100)
  let mp := (5 * doy + 2) / 153
  let dayv := doy - (153 * mp + 2) / 5 + 1
  let m := mp + (if mp < 10 then 3 else -9)
  (if m ≤ 2 then y + 1 else y, m, dayv)

def yearOf (n : ℤ) : ℤ := (civilOfOrdinal n).1

def monthOf (n : ℤ) : ℤ := (civilOfOrdinal n).2.1

def dayOf (n : ℤ) : ℤ := (civilOfOrdinal n).2.2

/-- `date.weekday()`: 0 = Monday … 6 = Sunday.  Ordinal 1 (0001-01-01) is a
Monday. -/
def weekdayOf (n : ℤ) : ℤ := (n - 1) % 7

example : civilOfOrdinal 1 = (1, 1, 1) := by decide
example : civilOfOrdinal 719163 = (1970, 1, 1) := by decide
example : weekdayOf 719163 = 3 := by decide

/-! ## Python numeric helpers -/

/-- Floor of a rational (`⌊q⌋`, spelled so that it evaluates). -/
def ratFloor (q : ℚ) : ℤ := q.num / (q.den : ℤ)

theorem ratFloor_eq_floor (q : ℚ) : ratFloor q = ⌊q⌋ := Rat.floor_def.symm

/-- Python `round` to an integer: round-half-to-even. -/
def pyRoundHalfEven (q : ℚ) : ℤ :=
  let f := ratFloor q
  let r := q - f
  if r < 1/2 then f
  else if r > 1/2 then f + 1
  else if f % 2 == 0 then f else f + 1

/-- Python `round(x, 2)`. -/
def round2 (q : ℚ) : ℚ := (pyRoundHalfEven (q * 100) : ℚ) / 100

/-- Python `round(x, 1)`. -/
def round1 (q : ℚ) : ℚ := (pyRoundHalfEven (q * 10) : ℚ) / 10

example : round2 (1211/1000) = 121/100 := by
  norm_num [round2, pyRoundHalfEven, ratFloor]
example : round2 (8001/1000) = 8 := by
  norm_num [round2, pyRoundHalfEven, ratFloor]

/-- Python truthiness of a nullable integer column: `None` and `0` are falsy. -/
def intTruthy (o : Option ℤ) : Bool :=
  match o with
  | none => false
  | some k => k != 0

/-! ## Data model (`models/database.py`) -/

namespace LBS

/-- Row of the `tasks` table. -/
structure Task where
  task_id : String
  task_name : String
  context : String
  base_load_score : ℚ
  active : Bool
  rule_type : String
  due_date : Option ℤ
  mon : Bool
  tue : Bool
  wed : Bool
  thu : Bool
  fri : Bool
  sat : Bool
  sun : Bool
  interval_days : Option ℤ
  anchor_date : Option ℤ
  month_day : Option ℤ
  nth_in_month : Option ℤ
  weekday_mon1 : Option ℤ
  start_date : Option ℤ
  end_date : Option ℤ
deriving DecidableEq, Repr

/-- Row of the `task_exceptions` table. -/
structure TaskException where
  task_id : String
  target_date : ℤ
  exception_type : String
  override_load_value : Option ℚ
deriving DecidableEq, Repr

/-- Row of the `lbs_daily_cache` table (autoincrement `id` omitted; the
wall-clock `generated_at` default is modelled as an explicit timestamp). -/
structure LBSDailyCache where
  target_date : ℤ
  task_id : String
  calculated_load : ℚ
  rule_type_snapshot : String
  status : String
  is_overflow : Bool
  generated_at : ℤ
deriving DecidableEq, Repr

/-- Row of the `system_config` table.  `value` is `some q` when Python
`float(value)` parses the stored string to the float idealised by `q`, and
`none` when `float(value)` raises `ValueError`. -/
structure SystemConfigRow where
  key : String
  value : Option ℚ
deriving DecidableEq, Repr

/-- The database session state: the four tables the engine reads/writes,
in rowid order. -/
structure Session where
  system_config : List SystemConfigRow
  tasks : List Task
  exceptions : List TaskException
  cache : List LBSDailyCache
deriving DecidableEq, Repr

/-- The engine: a session plus the config dict loaded at construction. -/
structure LBSEngine where
  session : Session
  config : List (String × ℚ)
deriving DecidableEq, Repr

/-- Python `dict.get(k, default)` on the config dict built by a
comprehension: the *last* row with key `k` wins, else the default. -/
def cfgGet (cfg : List (String × ℚ)) (k : String) (dflt : ℚ) : ℚ :=
  match cfg.reverse.find? (fun p => p.1 == k) with
  | some p => p.2
  | none => dflt

/-- `LBSEngine._load_config`: `{c.key: float(c.value) for c in configs}`.
Fails (Python `ValueError`) as soon as any stored value does not parse. -/
def load_config (rows : List SystemConfigRow) : Except Unit (List (String × ℚ)) :=
  rows.foldr
    (fun r acc =>
      match r.value, acc with
      | some v, Except.ok l => Except.ok ((r.key, v) :: l)
      | _, _ => Except.error ())
    (Except.ok [])

/-- `LBSEngine.__init__`: store the session and load the config table. -/
def LBSEngine.construct (s : Session) : Except Unit LBSEngine :=
  (load_config s.system_config).map (fun cfg => ⟨s, cfg⟩)

/-- The `ALPHA` coefficient as read by `calculate_daily_load`. -/
def alphaOf (cfg : List (String × ℚ)) : ℚ := cfgGet cfg "ALPHA" (1/10)

/-- The `BETA` exponent as read by `calculate_daily_load`. -/
def betaOf (cfg : List (String × ℚ)) : ℚ := cfgGet cfg "BETA" (6/5)

/-- The `SWITCH_COST` coefficient as read by `calculate_daily_load`. -/
def switchCostOf (cfg : List (String × ℚ)) : ℚ := cfgGet cfg "SWITCH_COST" (1/2)

/-- The `CAP` capacity as read by the engine. -/
def capOf (cfg : List (String × ℚ)) : ℚ := cfgGet cfg "CAP" 8

/-! ## Rule matcher and exception resolver -/

/-- `LBSEngine._is_nth_weekday(target_date, nth, weekday)`. -/
def is_nth_weekday (target_date nth weekday : ℤ) : Bool :=
  let target_weekday := (weekday - 1) % 7
  if weekdayOf target_date ≠ target_weekday then false
  else
    let occurrence := (dayOf target_date - 1) / 7 + 1
    if nth = -1 then monthOf (target_date + 7) ≠ monthOf target_date
    else occurrence = nth

/-- `LBSEngine._should_task_occur(task, target_date)`: the Rule Matcher.
The validity-window check runs first; then string dispatch on `rule_type`;
any fall-through returns `false`.  The `%` tests ported from Python agree
with `Int.emod` because both vanish exactly on divisibility, and the
divisors of the other `%` uses are positive. -/
def should_task_occur (task : Task) (target_date : ℤ) : Bool :=
  if (match task.start_date with
      | some s => decide (target_date < s)
      | none => false) then false
  else if (match task.end_date with
      | some e => decide (target_date > e)
      | none => false) then false
  else if task.rule_type = "ONCE" then
    task.due_date = some target_date
  else if task.rule_type = "WEEKLY" then
    [task.mon, task.tue, task.wed, task.thu, task.fri, task.sat,
      task.sun].getD (weekdayOf target_date).toNat false
  else if task.rule_type = "EVERY_N_DAYS" then
    match task.anchor_date, task.interval_days with
    | some anchor, some interval =>
      if interval = 0 then false
      else
        let days_diff := target_date - anchor
        decide (days_diff ≥ 0) && decide (days_diff % interval = 0)
    | _, _ => false
  else if task.rule_type = "MONTHLY_DAY" then
    match task.month_day with
    | some md =>
      if md = 0 then false
      else
        let last_day := daysInMonth (yearOf target_date) (monthOf target_date)
        dayOf target_date = min md last_day
    | none => false
  else if task.rule_type = "MONTHLY_NTH_WEEKDAY" then
    if intTruthy task.nth_in_month && intTruthy task.weekday_mon1 then
      is_nth_weekday target_date (task.nth_in_month.getD 0)
        (task.weekday_mon1.getD 0)
    else false
  else false

/-- `LBSEngine._get_exception(task_id, target_date)`:
`query(TaskException).filter(...).first()`. -/
def get_exception (exceptions : List TaskException) (task_id : String)
    (target_date : ℤ) : Option TaskException :=
  exceptions.find? (fun e => e.task_id = task_id ∧ e.target_date = target_date)

/-! ## Load calculator -/

/-- One element of the `tasks` breakdown returned by `calculate_daily_load`.
`task_name`/`context` are `none` when the row's `task_id` resolves to no
catalog task (where Python would raise `AttributeError` on `None.context`). -/
structure TaskBreakdown where
  task_id : String
  task_name : Option String
  context : Option String
  load : ℚ
  status : String
deriving DecidableEq, Repr

/-- The dict returned by `calculate_daily_load`.  The zero-occurrence branch
of the source omits the two penalty keys; the model sets them to `0`. -/
structure DailyLoadResult where
  date : ℤ
  base_load : ℚ
  task_count : ℕ
  unique_contexts : ℕ
  count_penalty : ℚ
  context_penalty : ℚ
  adjusted_load : ℚ
  level : String
  cap : ℚ
  tasks : List TaskBreakdown
deriving DecidableEq, Repr

/-- `LBSEngine._get_warning_level(adjusted_load, cap)`. -/
def get_warning_level (adjusted_load cap : ℚ) : String :=
  if adjusted_load > cap then "CRITICAL"
  else if adjusted_load ≥ 8 then "DANGER"
  else if adjusted_load ≥ 6 then "WARNING"
  else "SAFE"

/-- The non-skipped cache rows for a date:
`query(LBSDailyCache).filter(target_date == d, status != "skipped").all()`. -/
def daily_entries (cache : List LBSDailyCache) (target_date : ℤ) :
    List LBSDailyCache :=
  cache.filter (fun r => r.target_date = target_date ∧ r.status ≠ "skipped")

/-- The context of the catalog task a cache row points at
(`query(Task).filter(task_id == entry.task_id).first().context`). -/
def contextOf (tasks : List Task) (task_id : String) : Option String :=
  (tasks.find? (fun t => t.task_id = task_id)).map (fun t => t.context)

/-- `base_load`: sum of `calculated_load` over the non-skipped rows. -/
def raw_base_load (e : LBSEngine) (target_date : ℤ) : ℚ :=
  ((daily_entries e.session.cache target_date).map
    (fun r => r.calculated_load)).sum

/-- `unique_contexts`: size of the set of looked-up contexts. -/
def unique_contexts_of (e : LBSEngine) (target_date : ℤ) : ℕ :=
  ((daily_entries e.session.cache target_date).map
    (fun r => contextOf e.session.tasks r.task_id)).dedup.length

/-- `count_penalty = ALPHA * task_count ** BETA` (before rounding). -/
def raw_count_penalty (powf : ℕ → ℚ → ℚ) (e : LBSEngine)
    (target_date : ℤ) : ℚ :=
  alphaOf e.config *
    powf (daily_entries e.session.cache target_date).length (betaOf e.config)

/-- `context_penalty = SWITCH_COST * max(unique_contexts - 1, 0)`
(before rounding). -/
def raw_context_penalty (e : LBSEngine) (target_date : ℤ) : ℚ :=
  switchCostOf e.config * max ((unique_contexts_of e target_date : ℤ) - 1) 0

/-- `adjusted_load = base_load + count_penalty + context_penalty`
(before rounding). -/
def raw_adjusted_load (powf : ℕ → ℚ → ℚ) (e : LBSEngine)
    (target_date : ℤ) : ℚ :=
  raw_base_load e target_date + raw_count_penalty powf e target_date +
    raw_context_penalty e target_date

/-- One element of the `tasks` list in the returned dict:
`{"task_id": ..., "task_name": <catalog lookup>, "context": <catalog
lookup>, "load": entry.calculated_load, "status": entry.status}`. -/
def task_breakdown (tasks : List Task) (r : LBSDailyCache) : TaskBreakdown :=
  { task_id := r.task_id
    task_name := (tasks.find? (fun t => t.task_id = r.task_id)).map
      (fun t => t.task_name)
    context := contextOf tasks r.task_id
    load := r.calculated_load
    status := r.status }

/-- `LBSEngine.calculate_daily_load(target_date)`. -/
def calculate_daily_load (powf : ℕ → ℚ → ℚ) (e : LBSEngine)
    (target_date : ℤ) : DailyLoadResult :=
  let cap := capOf e.config
  let entries := daily_entries e.session.cache target_date
  if entries = [] then
    { date := target_date, base_load := 0, task_count := 0,
      unique_contexts := 0, count_penalty := 0, context_penalty := 0,
      adjusted_load := 0, level := "SAFE", cap := cap, tasks := [] }
  else
    let adjusted := raw_adjusted_load powf e target_date
    { date := target_date
      base_load := round2 (raw_base_load e target_date)
      task_count := entries.length
      unique_contexts := unique_contexts_of e target_date
      count_penalty := round2 (raw_count_penalty powf e target_date)
      context_penalty := round2 (raw_context_penalty e target_date)
      adjusted_load := round2 adjusted
      level := get_warning_level adjusted cap
      cap := cap
      tasks := entries.map (task_breakdown e.session.tasks) }

/-! ## Expansion engine -/

/-- The inclusive day range `start_date … end_date` walked by the
`while current_date <= end_date` loops. -/
def dateRange (start_date end_date : ℤ) : List ℤ :=
  if start_date > end_date then []
  else start_date :: dateRange (start_date + 1) end_date
termination_by (end_date + 1 - start_date).toNat
decreasing_by omega

theorem mem_dateRange (s e x : ℤ) : x ∈ dateRange s e ↔ s ≤ x ∧ x ≤ e := by
  generalize hn : (e + 1 - s).toNat = n
  induction n generalizing s with
  | zero =>
    rw [dateRange]
    have hse : s > e := by omega
    simp only [if_pos hse, List.not_mem_nil, false_iff]
    omega
  | succ k ih =>
    rw [dateRange]
    by_cases hse : s > e
    · simp only [if_pos hse, List.not_mem_nil, false_iff]; omega
    · simp only [if_neg hse, List.mem_cons]
      rw [ih (s + 1) (by omega)]
      omega

theorem dateRange_nodup (s e : ℤ) : (dateRange s e).Nodup := by
  generalize hn : (e + 1 - s).toNat = n
  induction n generalizing s with
  | zero =>
    rw [dateRange]
    have hse : s > e := by omega
    simp [if_pos hse]
  | succ k ih =>
    rw [dateRange]
    by_cases hse : s > e
    · simp [if_pos hse]
    · simp only [if_neg hse, List.nodup_cons]
      refine ⟨fun hmem => ?_, ih (s + 1) (by omega)⟩
      rw [mem_dateRange] at hmem
      omega

/-- The load carried by the occurrence after consulting the exception for
the pair (the `continue` on `SKIP`, then `load = base_load_score` possibly
replaced by `override_load_value`), or `none` when the occurrence is
skipped.  A NULL `override_load_value` is totalised to `0` (Python would
crash the insert on the NOT-NULL cache column). -/
def resolved_load (exc : Option TaskException) (task : Task) : Option ℚ :=
  match exc with
  | some exc =>
    if exc.exception_type = "SKIP" then none
    else if exc.exception_type = "OVERRIDE_LOAD" then
      some (exc.override_load_value.getD 0)
    else some task.base_load_score
  | none => some task.base_load_score

/-- The cache row `expand_tasks` inserts for one (task, date) occurrence, or
`none` when the rule does not match or a `SKIP` exception suppresses it. -/
def occurrence_row (exceptions : List TaskException) (now : ℤ)
    (target_date : ℤ) (task : Task) : Option LBSDailyCache :=
  if should_task_occur task target_date then
    (resolved_load (get_exception exceptions task.task_id target_date)
      task).map (fun load =>
        { target_date := target_date, task_id := task.task_id
          calculated_load := load
          rule_type_snapshot := task.rule_type, status := "planned"
          is_overflow := false, generated_at := now })
  else none

/-- The rows the date × active-task double loop of `expand_tasks` inserts. -/
def expanded_rows (tasks : List Task) (exceptions : List TaskException)
    (start_date end_date now : ℤ) : List LBSDailyCache :=
  (dateRange start_date end_date).flatMap (fun d =>
    (tasks.filter (fun t => t.active)).filterMap (occurrence_row exceptions now d))

/-- Replace the engine's cache table (the only table the engine writes). -/
def setCache (e : LBSEngine) (c : List LBSDailyCache) : LBSEngine :=
  { e with session := { e.session with cache := c } }

@[simp] theorem setCache_cache (e : LBSEngine) (c : List LBSDailyCache) :
    (setCache e c).session.cache = c := rfl

@[simp] theorem setCache_tasks (e : LBSEngine) (c : List LBSDailyCache) :
    (setCache e c).session.tasks = e.session.tasks := rfl

@[simp] theorem setCache_exceptions (e : LBSEngine) (c : List LBSDailyCache) :
    (setCache e c).session.exceptions = e.session.exceptions := rfl

@[simp] theorem setCache_system_config (e : LBSEngine)
    (c : List LBSDailyCache) :
    (setCache e c).session.system_config = e.session.system_config := rfl

@[simp] theorem setCache_config (e : LBSEngine) (c : List LBSDailyCache) :
    (setCache e c).config = e.config := rfl

/-- The `update({"is_overflow": is_overflow})` write on one cache row. -/
def setOverflow (r : LBSDailyCache) (b : Bool) : LBSDailyCache :=
  { r with is_overflow := b }

@[simp] theorem setOverflow_target_date (r : LBSDailyCache) (b : Bool) :
    (setOverflow r b).target_date = r.target_date := rfl

@[simp] theorem setOverflow_task_id (r : LBSDailyCache) (b : Bool) :
    (setOverflow r b).task_id = r.task_id := rfl

@[simp] theorem setOverflow_calculated_load (r : LBSDailyCache) (b : Bool) :
    (setOverflow r b).calculated_load = r.calculated_load := rfl

@[simp] theorem setOverflow_rule_type_snapshot (r : LBSDailyCache) (b : Bool) :
    (setOverflow r b).rule_type_snapshot = r.rule_type_snapshot := rfl

@[simp] theorem setOverflow_status (r : LBSDailyCache) (b : Bool) :
    (setOverflow r b).status = r.status := rfl

@[simp] theorem setOverflow_generated_at (r : LBSDailyCache) (b : Bool) :
    (setOverflow r b).generated_at = r.generated_at := rfl

@[simp] theorem setOverflow_is_overflow (r : LBSDailyCache) (b : Bool) :
    (setOverflow r b).is_overflow = b := rfl

/-- One iteration of the `_update_overflow_flags` loop: recompute the daily
load for `day` and stamp `is_overflow` on every cache row of that date. -/
def overflow_step (powf : ℕ → ℚ → ℚ) (e : LBSEngine) (day : ℤ) : LBSEngine :=
  let overflow := decide ((calculate_daily_load powf e day).adjusted_load >
    capOf e.config)
  setCache e (e.session.cache.map (fun r =>
    if r.target_date = day then setOverflow r overflow else r))

/-- `LBSEngine._update_overflow_flags(start_date, end_date)`. -/
def update_overflow_flags (powf : ℕ → ℚ → ℚ) (e : LBSEngine)
    (start_date end_date : ℤ) : LBSEngine :=
  (dateRange start_date end_date).foldl (overflow_step powf) e

/-- The rows surviving the range deletion
`delete()` on `target_date >= start_date, target_date <= end_date`. -/
def kept_rows (cache : List LBSDailyCache) (start_date end_date : ℤ) :
    List LBSDailyCache :=
  cache.filter
    (fun r => ¬(start_date ≤ r.target_date ∧ r.target_date ≤ end_date))

/-- `LBSEngine.expand_tasks(start_date, end_date)`: delete the range, insert
the freshly matched occurrences (each stamped with the insertion time `now`),
then stamp the overflow flags. -/
def expand_tasks (powf : ℕ → ℚ → ℚ) (e : LBSEngine)
    (start_date end_date now : ℤ) : LBSEngine :=
  let rebuilt := kept_rows e.session.cache start_date end_date ++
    expanded_rows e.session.tasks e.session.exceptions
      start_date end_date now
  update_overflow_flags powf (setCache e rebuilt) start_date end_date

/-! ## Weekly statistics -/

/-- The dict returned by `get_weekly_stats`. -/
structure WeeklyStatsResult where
  start_date : ℤ
  end_date : ℤ
  average_load : ℚ
  over_days : ℕ
  recovery_days : ℕ
  recovery_rate : ℚ
  daily_loads : List ℚ
deriving DecidableEq, Repr

/-- `LBSEngine.get_weekly_stats(start_date)`: seven daily loads reduced to
average / over-CAP count / recovery count. -/
def get_weekly_stats (powf : ℕ → ℚ → ℚ) (e : LBSEngine)
    (start_date : ℤ) : WeeklyStatsResult :=
  let cap := capOf e.config
  let daily_loads := (dateRange start_date (start_date + 6)).map
    (fun d => (calculate_daily_load powf e d).adjusted_load)
  let over_days := daily_loads.countP (fun l => decide (l > cap))
  let recovery_days := daily_loads.countP (fun l => decide (l < 4))
  { start_date := start_date
    end_date := start_date + 6
    average_load := round2 (daily_loads.sum / daily_loads.length)
    over_days := over_days
    recovery_days := recovery_days
    recovery_rate := round1 (((recovery_days : ℚ) / 7) * 100)
    daily_loads := daily_loads }

/-! ## General lemmas about the embedding -/

@[simp] theorem setCache_self (e : LBSEngine) :
    setCache e e.session.cache = e := rfl

@[simp] theorem setCache_setCache (e : LBSEngine) (c c' : List LBSDailyCache) :
    setCache (setCache e c) c' = setCache e c' := rfl

theorem overflow_step_eq_setCache (powf : ℕ → ℚ → ℚ) (e : LBSEngine)
    (day : ℤ) :
    overflow_step powf e day = setCache e (e.session.cache.map (fun r =>
      if r.target_date = day then
        setOverflow r
          (decide ((calculate_daily_load powf e day).adjusted_load >
            capOf e.config))
      else r)) := rfl

theorem update_overflow_flags_eq_setCache (powf : ℕ → ℚ → ℚ) (days : List ℤ)
    (e : LBSEngine) :
    days.foldl (overflow_step powf) e =
      setCache e ((days.foldl (overflow_step powf) e).session.cache) := by
  induction days generalizing e with
  | nil => simp
  | cons day rest ih =>
    simp only [List.foldl_cons]
    rw [ih (overflow_step powf e day), overflow_step_eq_setCache]
    simp

theorem expand_tasks_eq_setCache (powf : ℕ → ℚ → ℚ) (e : LBSEngine)
    (s d now : ℤ) :
    expand_tasks powf e s d now =
      setCache e ((expand_tasks powf e s d now).session.cache) := by
  unfold expand_tasks update_overflow_flags
  rw [update_overflow_flags_eq_setCache]
  simp

@[simp] theorem expand_tasks_tasks (powf : ℕ → ℚ → ℚ) (e : LBSEngine)
    (s d now : ℤ) :
    (expand_tasks powf e s d now).session.tasks = e.session.tasks := by
  rw [expand_tasks_eq_setCache]; rfl

@[simp] theorem expand_tasks_exceptions (powf : ℕ → ℚ → ℚ) (e : LBSEngine)
    (s d now : ℤ) :
    (expand_tasks powf e s d now).session.exceptions =
      e.session.exceptions := by
  rw [expand_tasks_eq_setCache]; rfl

@[simp] theorem expand_tasks_config (powf : ℕ → ℚ → ℚ) (e : LBSEngine)
    (s d now : ℤ) :
    (expand_tasks powf e s d now).config = e.config := by
  rw [expand_tasks_eq_setCache]; rfl

/-- `calculate_daily_load` only reads the cache, the task catalog and the
config: engines agreeing there agree on every daily load. -/
theorem calculate_daily_load_congr (powf : ℕ → ℚ → ℚ) (e e' : LBSEngine)
    (hc : e'.session.cache = e.session.cache)
    (ht : e'.session.tasks = e.session.tasks)
    (hcfg : e'.config = e.config) (d : ℤ) :
    calculate_daily_load powf e' d = calculate_daily_load powf e d := by
  unfold calculate_daily_load raw_adjusted_load raw_base_load
    raw_count_penalty raw_context_penalty unique_contexts_of
  rw [hc, ht, hcfg]

/-- A cache-wide rewrite that only touches `is_overflow` flags changes no
field `calculate_daily_load` reads, hence no daily load. -/
theorem calculate_daily_load_map_flag (powf : ℕ → ℚ → ℚ) (e : LBSEngine)
    (g : LBSDailyCache → LBSDailyCache)
    (hg : ∀ r, ∃ b, g r = setOverflow r b) (d : ℤ) :
    calculate_daily_load powf (setCache e (e.session.cache.map g)) d =
      calculate_daily_load powf e d := by
  have hdate : ∀ r, (g r).target_date = r.target_date := by
    intro r; obtain ⟨b, hb⟩ := hg r; rw [hb]; rfl
  have hstat : ∀ r, (g r).status = r.status := by
    intro r; obtain ⟨b, hb⟩ := hg r; rw [hb]; rfl
  have hload : ∀ r, (g r).calculated_load = r.calculated_load := by
    intro r; obtain ⟨b, hb⟩ := hg r; rw [hb]; rfl
  have hid : ∀ r, (g r).task_id = r.task_id := by
    intro r; obtain ⟨b, hb⟩ := hg r; rw [hb]; rfl
  have hentries : ∀ c : List LBSDailyCache,
      daily_entries (c.map g) d = (daily_entries c d).map g := by
    intro c
    unfold daily_entries
    rw [List.filter_map]
    congr 1
    apply List.filter_congr
    intro r _
    simp [hdate r, hstat r]
  unfold calculate_daily_load raw_adjusted_load raw_base_load
    raw_count_penalty raw_context_penalty unique_contexts_of
  simp only [setCache_cache, setCache_tasks, setCache_config, hentries]
  have hmapload : ∀ c : List LBSDailyCache,
      ((c.map g).map (fun r => r.calculated_load)) =
        c.map (fun r => r.calculated_load) := by
    intro c; rw [List.map_map]; apply List.map_congr_left
    intro r _; simp [hload r]
  have hmapctx : ∀ c : List LBSDailyCache,
      ((c.map g).map (fun r => contextOf e.session.tasks r.task_id)) =
        c.map (fun r => contextOf e.session.tasks r.task_id) := by
    intro c; rw [List.map_map]; apply List.map_congr_left
    intro r _; simp [hid r]
  have hempty : ∀ c : List LBSDailyCache, (c.map g = []) = (c = []) := by
    intro c; cases c <;> simp
  have hbreak : ((daily_entries e.session.cache d).map
      (task_breakdown e.session.tasks ∘ g)) =
      (daily_entries e.session.cache d).map
        (task_breakdown e.session.tasks) := by
    apply List.map_congr_left
    intro r _
    simp [Function.comp, task_breakdown, hid r, hload r, hstat r]
  simp only [hempty, hmapload, hmapctx, List.length_map, List.map_map, hbreak]

/-- The per-row effect of the whole `_update_overflow_flags` loop over
`days`, relative to the engine state `e` the loop starts from. -/
def overflow_apply (powf : ℕ → ℚ → ℚ) (e : LBSEngine) (days : List ℤ)
    (r : LBSDailyCache) : LBSDailyCache :=
  if r.target_date ∈ days then
    setOverflow r
      (decide ((calculate_daily_load powf e r.target_date).adjusted_load >
        capOf e.config))
  else r

@[simp] theorem overflow_apply_target_date (powf : ℕ → ℚ → ℚ)
    (e : LBSEngine) (days : List ℤ) (r : LBSDailyCache) :
    (overflow_apply powf e days r).target_date = r.target_date := by
  unfold overflow_apply
  by_cases h : r.target_date ∈ days
  · rw [if_pos h]; rfl
  · rw [if_neg h]

theorem overflow_apply_not_mem (powf : ℕ → ℚ → ℚ) (e : LBSEngine)
    (days : List ℤ) (r : LBSDailyCache) (h : r.target_date ∉ days) :
    overflow_apply powf e days r = r := by
  unfold overflow_apply
  rw [if_neg h]

/-- What the whole `_update_overflow_flags` loop does to each cache row,
provided each day is visited once: rows of a visited date get their flag set
to "rounded daily load exceeds CAP", computed against the pre-loop cache
(the loop only ever writes `is_overflow`, which no daily-load read sees). -/
theorem update_overflow_flags_spec_aux (powf : ℕ → ℚ → ℚ) (days : List ℤ)
    (hnd : days.Nodup) (e : LBSEngine) :
    days.foldl (overflow_step powf) e =
      setCache e (e.session.cache.map (fun r =>
        if r.target_date ∈ days then
          setOverflow r
            (decide ((calculate_daily_load powf e
              r.target_date).adjusted_load > capOf e.config))
        else r)) := by
  induction days generalizing e with
  | nil => simp
  | cons day rest ih =>
    simp only [List.foldl_cons]
    have hd_rest : day ∉ rest := (List.nodup_cons.mp hnd).1
    have hrest_nd : rest.Nodup := (List.nodup_cons.mp hnd).2
    rw [overflow_step_eq_setCache, ih hrest_nd]
    have hg : ∀ r : LBSDailyCache, ∃ b,
        (if r.target_date = day then
          setOverflow r
            (decide ((calculate_daily_load powf e day).adjusted_load >
              capOf e.config))
        else r) = setOverflow r b := by
      intro r
      by_cases h : r.target_date = day
      · exact ⟨_, by rw [if_pos h]⟩
      · exact ⟨r.is_overflow, by rw [if_neg h]; rfl⟩
    have hcalc : ∀ x : ℤ,
        calculate_daily_load powf (setCache e (e.session.cache.map (fun r =>
          if r.target_date = day then
            setOverflow r
              (decide ((calculate_daily_load powf e day).adjusted_load >
                capOf e.config))
          else r))) x = calculate_daily_load powf e x :=
      fun x => calculate_daily_load_map_flag powf e _ hg x
    simp only [setCache_setCache, setCache_cache, setCache_config,
      List.map_map]
    congr 1
    apply List.map_congr_left
    intro r _
    simp only [Function.comp, hcalc]
    by_cases hday : r.target_date = day
    · rw [if_pos hday]
      by_cases hmem2 : (setOverflow r
          (decide ((calculate_daily_load powf e day).adjusted_load >
            capOf e.config))).target_date ∈ rest
      · rw [setOverflow_target_date] at hmem2
        rw [hday] at hmem2
        exact absurd hmem2 hd_rest
      · rw [if_neg hmem2]
        have : r.target_date ∈ day :: rest := by simp [hday]
        rw [if_pos this, hday]
    · rw [if_neg hday]
      by_cases hmem : r.target_date ∈ rest
      · rw [if_pos hmem]
        have : r.target_date ∈ day :: rest := List.mem_cons_of_mem _ hmem
        rw [if_pos this]
      · rw [if_neg hmem]
        have : r.target_date ∉ day :: rest := by
          simp [List.mem_cons, hday, hmem]
        rw [if_neg this]

theorem update_overflow_flags_spec (powf : ℕ → ℚ → ℚ) (days : List ℤ)
    (hnd : days.Nodup) (e : LBSEngine) :
    days.foldl (overflow_step powf) e =
      setCache e (e.session.cache.map (overflow_apply powf e days)) :=
  update_overflow_flags_spec_aux powf days hnd e

/-- Every row inserted by the expansion loop dates inside the range. -/
theorem expanded_rows_range (tasks : List Task)
    (exceptions : List TaskException) (s d now : ℤ) (r : LBSDailyCache)
    (hr : r ∈ expanded_rows tasks exceptions s d now) :
    s ≤ r.target_date ∧ r.target_date ≤ d := by
  unfold expanded_rows at hr
  obtain ⟨day, hday, hr⟩ := List.mem_flatMap.mp hr
  obtain ⟨t, _, ht⟩ := List.mem_filterMap.mp hr
  have hdate : r.target_date = day := by
    unfold occurrence_row at ht
    split at ht
    · cases hl : resolved_load
          (get_exception exceptions t.task_id day) t with
      | none => rw [hl] at ht; cases ht
      | some load => rw [hl] at ht; cases ht; rfl
    · cases ht
  rw [hdate]
  exact (mem_dateRange s d day).mp hday

/-- The row a successful `occurrence_row` returns carries the task's id and
the target date, status `planned`, a cleared overflow flag and the insertion
timestamp. -/
theorem occurrence_row_fields (exceptions : List TaskException) (now d : ℤ)
    (t : Task) (r : LBSDailyCache)
    (h : occurrence_row exceptions now d t = some r) :
    r.target_date = d ∧ r.task_id = t.task_id ∧ r.status = "planned" ∧
      r.is_overflow = false ∧ r.generated_at = now := by
  unfold occurrence_row at h
  split at h
  · cases hl : resolved_load (get_exception exceptions t.task_id d) t with
    | none => rw [hl] at h; cases h
    | some load => rw [hl] at h; cases h; exact ⟨rfl, rfl, rfl, rfl, rfl⟩
  · cases h

theorem expand_tasks_def (powf : ℕ → ℚ → ℚ) (e : LBSEngine)
    (s d now : ℤ) :
    expand_tasks powf e s d now =
      update_overflow_flags powf
        (setCache e (kept_rows e.session.cache s d ++
          expanded_rows e.session.tasks e.session.exceptions s d now))
        s d := rfl

/-- Filtering out the range after an overflow-style rewrite of in-range rows
gives back the out-of-range rows unchanged. -/
theorem kept_rows_map_flagged (powf : ℕ → ℚ → ℚ) (eref : LBSEngine)
    (c : List LBSDailyCache) (s d : ℤ) :
    kept_rows (c.map (overflow_apply powf eref (dateRange s d))) s d =
      kept_rows c s d := by
  unfold kept_rows
  rw [List.filter_map]
  have hpg : List.filter ((fun r : LBSDailyCache =>
      decide (¬(s ≤ r.target_date ∧ r.target_date ≤ d))) ∘
        overflow_apply powf eref (dateRange s d)) c =
      List.filter (fun r : LBSDailyCache =>
        decide (¬(s ≤ r.target_date ∧ r.target_date ≤ d))) c := by
    apply List.filter_congr
    intro r _
    simp [Function.comp, overflow_apply_target_date]
  rw [hpg]
  have hmap : (List.filter (fun r : LBSDailyCache =>
      decide (¬(s ≤ r.target_date ∧ r.target_date ≤ d))) c).map
        (overflow_apply powf eref (dateRange s d)) =
      (List.filter (fun r : LBSDailyCache =>
        decide (¬(s ≤ r.target_date ∧ r.target_date ≤ d))) c).map id := by
    apply List.map_congr_left
    intro r hr
    have hout := List.of_mem_filter hr
    have hnm : r.target_date ∉ dateRange s d := by
      rw [mem_dateRange]
      exact of_decide_eq_true hout
    rw [overflow_apply_not_mem powf eref _ r hnm]
    rfl
  rw [hmap, List.map_id]

/-- Re-expanding a range leaves the out-of-range rows untouched: the overflow
loop only rewrites rows dated inside the range. -/
theorem expand_tasks_kept_rows (powf : ℕ → ℚ → ℚ) (e : LBSEngine)
    (s d now : ℤ) :
    kept_rows (expand_tasks powf e s d now).session.cache s d =
      kept_rows e.session.cache s d := by
  rw [expand_tasks_def]
  unfold update_overflow_flags
  rw [update_overflow_flags_spec powf _ (dateRange_nodup s d), setCache_cache,
    setCache_cache]
  rw [kept_rows_map_flagged]
  unfold kept_rows
  rw [List.filter_append]
  have h1 : List.filter (fun r : LBSDailyCache =>
      decide (¬(s ≤ r.target_date ∧ r.target_date ≤ d)))
        (List.filter (fun r : LBSDailyCache =>
          decide (¬(s ≤ r.target_date ∧ r.target_date ≤ d)))
          e.session.cache) =
      List.filter (fun r : LBSDailyCache =>
        decide (¬(s ≤ r.target_date ∧ r.target_date ≤ d)))
        e.session.cache := by
    apply List.filter_eq_self.mpr
    intro r hr
    exact (List.mem_filter.mp hr).2
  have h2 : List.filter (fun r : LBSDailyCache =>
      decide (¬(s ≤ r.target_date ∧ r.target_date ≤ d)))
        (expanded_rows e.session.tasks e.session.exceptions s d now) =
      [] := by
    apply List.filter_eq_nil_iff.mpr
    intro r hr
    have := expanded_rows_range _ _ _ _ _ _ hr
    simpa using this
  rw [h1, h2, List.append_nil]

/-- Re-expansion over the same range replays the first expansion exactly:
tasks and exceptions are untouched by `expand_tasks`, the out-of-range rows
are restored by `expand_tasks_kept_rows`, and the regenerated rows depend
only on tasks, exceptions and the insertion timestamp. -/
theorem expand_tasks_idem (powf : ℕ → ℚ → ℚ) (e : LBSEngine)
    (s d t1 t2 : ℤ) :
    expand_tasks powf (expand_tasks powf e s d t1) s d t2 =
      expand_tasks powf e s d t2 := by
  conv_lhs => rw [expand_tasks_def]
  conv_rhs => rw [expand_tasks_def]
  rw [expand_tasks_kept_rows, expand_tasks_tasks, expand_tasks_exceptions]
  rw [expand_tasks_eq_setCache powf e s d t1, setCache_setCache]

/-- The cache rows for one (task_id, date) pair. -/
def pair_rows (c : List LBSDailyCache) (tid : String) (d0 : ℤ) :
    List LBSDailyCache :=
  c.filter (fun r => r.task_id = tid ∧ r.target_date = d0)

theorem pair_rows_append (c c' : List LBSDailyCache) (tid : String)
    (d0 : ℤ) :
    pair_rows (c ++ c') tid d0 = pair_rows c tid d0 ++ pair_rows c' tid d0 :=
  List.filter_append _ _

theorem option_isSome_map {α β : Type} (f : α → β) (o : Option α) :
    (o.map f).isSome = o.isSome := by cases o <;> rfl

/-- `resolved_load` keeps the occurrence exactly when the first exception
found for the pair (if any) is not `SKIP`. -/
theorem resolved_load_isSome (exc : Option TaskException) (t : Task) :
    (resolved_load exc t).isSome ↔
      ∀ e, exc = some e → e.exception_type ≠ "SKIP" := by
  cases exc with
  | none => simp [resolved_load]
  | some e =>
    simp only [resolved_load]
    by_cases hskip : e.exception_type = "SKIP"
    · rw [if_pos hskip]
      simp [hskip]
    · rw [if_neg hskip]
      by_cases hov : e.exception_type = "OVERRIDE_LOAD"
      · rw [if_pos hov]; simp [hskip]
      · rw [if_neg hov]; simp [hskip]

/-- An occurrence produced for one day never raises, and exists exactly when
the matcher fires and the first exception found for the pair is not `SKIP`. -/
theorem occurrence_row_isSome (exceptions : List TaskException) (now d : ℤ)
    (t : Task) :
    (occurrence_row exceptions now d t).isSome ↔
      (should_task_occur t d ∧ ∀ exc,
        get_exception exceptions t.task_id d = some exc →
          exc.exception_type ≠ "SKIP") := by
  unfold occurrence_row
  by_cases ho : should_task_occur t d
  · rw [if_pos ho]
    rw [option_isSome_map]
    simp only [ho, true_and]
    exact resolved_load_isSome _ t
  · rw [if_neg ho]
    simp [ho]

/-- A produced occurrence carries the task's base load unless an
`OVERRIDE_LOAD` exception is the first match for the pair. -/
theorem occurrence_row_load (exceptions : List TaskException) (now d : ℤ)
    (t : Task) (r : LBSDailyCache)
    (h : occurrence_row exceptions now d t = some r)
    (hov : ∀ exc, get_exception exceptions t.task_id d = some exc →
      exc.exception_type ≠ "OVERRIDE_LOAD") :
    r.calculated_load = t.base_load_score := by
  unfold occurrence_row at h
  split at h
  · cases hexc : get_exception exceptions t.task_id d with
    | some exc =>
      rw [hexc] at h
      simp only [resolved_load] at h
      by_cases hskip : exc.exception_type = "SKIP"
      · rw [if_pos hskip] at h; cases h
      · rw [if_neg hskip, if_neg (hov exc hexc)] at h
        cases h; rfl
    | none =>
      rw [hexc] at h
      simp only [resolved_load] at h
      cases h; rfl
  · cases h

theorem occurrence_row_task_id (exceptions : List TaskException) (now d : ℤ)
    (t : Task) (r : LBSDailyCache)
    (h : occurrence_row exceptions now d t = some r) :
    r.task_id = t.task_id :=
  (occurrence_row_fields exceptions now d t r h).2.1

theorem occurrence_row_date (exceptions : List TaskException) (now d : ℤ)
    (t : Task) (r : LBSDailyCache)
    (h : occurrence_row exceptions now d t = some r) :
    r.target_date = d :=
  (occurrence_row_fields exceptions now d t r h).1

/-- In the rows generated for a single day by tasks with pairwise-distinct
ids, the pair (tid, d0) is hit at most once, exactly when some catalog task
with that id is active and produces an occurrence. -/
theorem pair_rows_day_length (tasks : List Task)
    (exceptions : List TaskException) (now d0 : ℤ) (tid : String)
    (hnt : (tasks.map Task.task_id).Nodup) :
    (pair_rows ((tasks.filter (fun t => t.active)).filterMap
        (occurrence_row exceptions now d0)) tid d0).length =
      if ∃ t ∈ tasks, t.task_id = tid ∧ t.active ∧
          (occurrence_row exceptions now d0 t).isSome then 1 else 0 := by
  induction tasks with
  | nil => simp [pair_rows]
  | cons t rest ih =>
    have hnt_rest : (rest.map Task.task_id).Nodup :=
      (List.nodup_cons.mp hnt).2
    have hid_not : t.task_id ∉ rest.map Task.task_id :=
      (List.nodup_cons.mp hnt).1
    have hdrop : ∀ (hkill : ¬(t.task_id = tid ∧ t.active ∧
        (occurrence_row exceptions now d0 t).isSome)),
        (∃ t' ∈ t :: rest, t'.task_id = tid ∧ t'.active ∧
          (occurrence_row exceptions now d0 t').isSome) ↔
        (∃ t' ∈ rest, t'.task_id = tid ∧ t'.active ∧
          (occurrence_row exceptions now d0 t').isSome) := by
      intro hkill
      constructor
      · rintro ⟨t', ht', hid', hact', hsome'⟩
        rcases List.mem_cons.mp ht' with heq | ht''
        · exact absurd ⟨heq ▸ hid', heq ▸ hact', heq ▸ hsome'⟩ hkill
        · exact ⟨t', ht'', hid', hact', hsome'⟩
      · rintro ⟨t', ht', hid', hact', hsome'⟩
        exact ⟨t', List.mem_cons_of_mem _ ht', hid', hact', hsome'⟩
    by_cases hact : t.active
    · rw [List.filter_cons_of_pos (by simp [hact])]
      rw [List.filterMap_cons]
      cases hocc : occurrence_row exceptions now d0 t with
      | none =>
        rw [ih hnt_rest]
        have := hdrop (by rw [hocc]; simp)
        rw [if_congr this rfl rfl]
      | some r =>
        unfold pair_rows
        rw [List.filter_cons]
        by_cases hmatch : r.task_id = tid ∧ r.target_date = d0
        · rw [if_pos (by simpa using hmatch)]
          have hrid : t.task_id = tid := by
            rw [← occurrence_row_task_id exceptions now d0 t r hocc]
            exact hmatch.1
          have hrest0 : (List.filter (fun r : LBSDailyCache =>
              decide (r.task_id = tid ∧ r.target_date = d0))
              ((rest.filter (fun t => t.active)).filterMap
                (occurrence_row exceptions now d0))).length = 0 := by
            rw [List.length_eq_zero]
            apply List.filter_eq_nil_iff.mpr
            intro r' hr'
            obtain ⟨t', ht', hocc'⟩ := List.mem_filterMap.mp hr'
            have hrid' : r'.task_id = t'.task_id :=
              occurrence_row_task_id exceptions now d0 t' r' hocc'
            have ht'mem : t' ∈ rest := (List.mem_filter.mp ht').1
            have hne : t'.task_id ≠ tid := by
              intro hc
              apply hid_not
              rw [hrid, ← hc]
              exact List.mem_map_of_mem Task.task_id ht'mem
            simp [hrid', hne]
          simp only [List.length_cons, hrest0]
          rw [if_pos ⟨t, List.mem_cons_self t rest, hrid, hact,
            by rw [hocc]; rfl⟩]
        · rw [if_neg (by simpa using hmatch)]
          have hkill : ¬(t.task_id = tid ∧ t.active ∧
              (occurrence_row exceptions now d0 t).isSome) := by
            rintro ⟨hid', _, _⟩
            apply hmatch
            exact ⟨(occurrence_row_task_id exceptions now d0 t r hocc) ▸ hid',
              occurrence_row_date exceptions now d0 t r hocc⟩
          have hiff := hdrop hkill
          rw [if_congr hiff rfl rfl]
          rw [← ih hnt_rest]
          rfl
    · rw [List.filter_cons_of_neg (by simp [hact])]
      rw [ih hnt_rest]
      have := hdrop (by rw [Bool.not_eq_true] at hact; simp [hact])
      rw [if_congr this rfl rfl]

@[simp] theorem overflow_apply_task_id (powf : ℕ → ℚ → ℚ) (e : LBSEngine)
    (days : List ℤ) (r : LBSDailyCache) :
    (overflow_apply powf e days r).task_id = r.task_id := by
  unfold overflow_apply
  by_cases h : r.target_date ∈ days
  · rw [if_pos h]; rfl
  · rw [if_neg h]

/-- A date the loop never visits yields no pair row. -/
theorem pair_rows_flatMap_zero (tasks : List Task)
    (exceptions : List TaskException) (now : ℤ) (days : List ℤ)
    (tid : String) (d0 : ℤ) (hd0 : d0 ∉ days) :
    pair_rows (days.flatMap (fun day =>
      (tasks.filter (fun t => t.active)).filterMap
        (occurrence_row exceptions now day))) tid d0 = [] := by
  unfold pair_rows
  apply List.filter_eq_nil_iff.mpr
  intro r hr
  obtain ⟨day, hday, hr⟩ := List.mem_flatMap.mp hr
  obtain ⟨t, _, ht⟩ := List.mem_filterMap.mp hr
  have hdate := occurrence_row_date exceptions now day t r ht
  have : r.target_date ≠ d0 := by
    rw [hdate]; intro hc; exact hd0 (hc ▸ hday)
  simp [this]

/-- Pair count across the whole day loop: at most one row, present exactly
when the pair's date is walked and its task matches and survives. -/
theorem pair_rows_flatMap_length (tasks : List Task)
    (exceptions : List TaskException) (now : ℤ) (days : List ℤ)
    (hnd : days.Nodup) (tid : String) (d0 : ℤ)
    (hnt : (tasks.map Task.task_id).Nodup) :
    (pair_rows (days.flatMap (fun day =>
      (tasks.filter (fun t => t.active)).filterMap
        (occurrence_row exceptions now day))) tid d0).length =
      if d0 ∈ days ∧ ∃ t ∈ tasks, t.task_id = tid ∧ t.active ∧
          (occurrence_row exceptions now d0 t).isSome then 1 else 0 := by
  induction days with
  | nil => simp [pair_rows]
  | cons day rest ih =>
    have hnd_rest : rest.Nodup := (List.nodup_cons.mp hnd).2
    have hday_rest : day ∉ rest := (List.nodup_cons.mp hnd).1
    rw [List.flatMap_cons, pair_rows_append, List.length_append,
      ih hnd_rest]
    by_cases hday : d0 = day
    · subst hday
      have hrest0 : (if d0 ∈ rest ∧ ∃ t ∈ tasks, t.task_id = tid ∧
          t.active ∧ (occurrence_row exceptions now d0 t).isSome
          then 1 else 0) = 0 := by
        rw [if_neg]
        rintro ⟨hmem, _⟩
        exact hday_rest hmem
      rw [hrest0, pair_rows_day_length tasks exceptions now d0 tid hnt]
      by_cases hex : ∃ t ∈ tasks, t.task_id = tid ∧ t.active ∧
          (occurrence_row exceptions now d0 t).isSome
      · rw [if_pos hex, if_pos ⟨List.mem_cons_self _ _, hex⟩]
      · rw [if_neg hex, if_neg (by rintro ⟨_, h⟩; exact hex h)]
    · have hhead0 : pair_rows ((tasks.filter (fun t => t.active)).filterMap
          (occurrence_row exceptions now day)) tid d0 = [] := by
        unfold pair_rows
        apply List.filter_eq_nil_iff.mpr
        intro r hr
        obtain ⟨t, _, ht⟩ := List.mem_filterMap.mp hr
        have hdate := occurrence_row_date exceptions now day t r ht
        have : r.target_date ≠ d0 := by
          rw [hdate]; exact fun hc => hday hc.symm
        simp [this]
      rw [hhead0]
      simp only [List.length_nil, Nat.zero_add]
      have hiff : (d0 ∈ day :: rest ∧ ∃ t ∈ tasks, t.task_id = tid ∧
          t.active ∧ (occurrence_row exceptions now d0 t).isSome) ↔
          (d0 ∈ rest ∧ ∃ t ∈ tasks, t.task_id = tid ∧ t.active ∧
            (occurrence_row exceptions now d0 t).isSome) := by
        constructor
        · rintro ⟨hmem, hex⟩
          exact ⟨(List.mem_cons.mp hmem).resolve_left hday, hex⟩
        · rintro ⟨hmem, hex⟩
          exact ⟨List.mem_cons_of_mem _ hmem, hex⟩
      rw [if_congr hiff rfl rfl]

/-- Flag rewrites keep the pair rows in place. -/
theorem pair_rows_map_overflow (powf : ℕ → ℚ → ℚ) (eref : LBSEngine)
    (days : List ℤ) (c : List LBSDailyCache) (tid : String) (d0 : ℤ) :
    pair_rows (c.map (overflow_apply powf eref days)) tid d0 =
      (pair_rows c tid d0).map (overflow_apply powf eref days) := by
  unfold pair_rows
  rw [List.filter_map]
  congr 1
  apply List.filter_congr
  intro r _
  simp [Function.comp]

/-- Pair count in the cache after `expand_tasks`, for a pair dated inside
the expanded range: at most one row, present exactly when an active catalog
task with that id matches and is not skipped. -/
theorem expand_pair_rows_length (powf : ℕ → ℚ → ℚ) (e : LBSEngine)
    (s d now : ℤ) (tid : String) (d0 : ℤ)
    (hnt : (e.session.tasks.map Task.task_id).Nodup)
    (hs : s ≤ d0) (hd : d0 ≤ d) :
    (pair_rows (expand_tasks powf e s d now).session.cache tid d0).length =
      if ∃ t ∈ e.session.tasks, t.task_id = tid ∧ t.active ∧
          (occurrence_row e.session.exceptions now d0 t).isSome
      then 1 else 0 := by
  rw [expand_tasks_def]
  unfold update_overflow_flags
  rw [update_overflow_flags_spec powf _ (dateRange_nodup s d), setCache_cache,
    setCache_cache]
  rw [pair_rows_map_overflow, List.length_map, pair_rows_append,
    List.length_append]
  have hkept0 : pair_rows (kept_rows e.session.cache s d) tid d0 = [] := by
    unfold pair_rows
    apply List.filter_eq_nil_iff.mpr
    intro r hr
    unfold kept_rows at hr
    have h1 := List.of_mem_filter hr
    have hout : ¬(s ≤ r.target_date ∧ r.target_date ≤ d) :=
      of_decide_eq_true h1
    simp only [decide_eq_true_eq, not_and]
    rintro hid hdate
    exact absurd ⟨hdate ▸ hs, hdate ▸ hd⟩ hout
  rw [hkept0]
  simp only [List.length_nil, Nat.zero_add]
  unfold expanded_rows
  rw [pair_rows_flatMap_length e.session.tasks e.session.exceptions now
    (dateRange s d) (dateRange_nodup s d) tid d0 hnt]
  have hiff : (d0 ∈ dateRange s d ∧ ∃ t ∈ e.session.tasks,
      t.task_id = tid ∧ t.active ∧
        (occurrence_row e.session.exceptions now d0 t).isSome) ↔
      (∃ t ∈ e.session.tasks, t.task_id = tid ∧ t.active ∧
        (occurrence_row e.session.exceptions now d0 t).isSome) := by
    constructor
    · rintro ⟨_, hex⟩; exact hex
    · intro hex; exact ⟨(mem_dateRange s d d0).mpr ⟨hs, hd⟩, hex⟩
  rw [if_congr hiff rfl rfl]

/-- `first()` returns the one matching row when at most one row matches. -/
theorem find?_eq_of_mem_of_unique {α : Type} (l : List α) (p : α → Bool)
    (hu : (l.filter p).length ≤ 1) (x : α) (hx : x ∈ l) (hpx : p x) :
    l.find? p = some x := by
  induction l with
  | nil => cases hx
  | cons a rest ih =>
    by_cases hpa : p a
    · rw [List.find?_cons_of_pos _ hpa]
      rcases List.mem_cons.mp hx with rfl | hx'
      · rfl
      · exfalso
        rw [List.filter_cons_of_pos hpa] at hu
        have hxf : x ∈ rest.filter p := List.mem_filter.mpr ⟨hx', hpx⟩
        have : 1 ≤ (rest.filter p).length :=
          List.length_pos.mpr (List.ne_nil_of_mem hxf)
        simp only [List.length_cons] at hu
        omega
    · rw [List.find?_cons_of_neg _ hpa]
      rcases List.mem_cons.mp hx with rfl | hx'
      · exact absurd hpx hpa
      · rw [List.filter_cons_of_neg hpa] at hu
        exact ih hu hx'

/-- Removing rows that the search predicate rejects leaves `first()`
unchanged. -/
theorem find?_filter_of_imp {α : Type} (l : List α) (p q : α → Bool)
    (himp : ∀ x, p x = true → q x = true) :
    (l.filter q).find? p = l.find? p := by
  induction l with
  | nil => rfl
  | cons a rest ih =>
    by_cases hqa : q a
    · rw [List.filter_cons_of_pos hqa]
      by_cases hpa : p a
      · rw [List.find?_cons_of_pos _ hpa, List.find?_cons_of_pos _ hpa]
      · rw [List.find?_cons_of_neg _ hpa, List.find?_cons_of_neg _ hpa]
        exact ih
    · rw [List.filter_cons_of_neg hqa]
      have hpa : ¬p a = true := fun hc => hqa (himp a hc)
      rw [List.find?_cons_of_neg _ hpa]
      exact ih

/-- Two engines that agree on config, tasks and cache produce identical
caches through the whole overflow loop (the loop never reads exceptions). -/
theorem update_overflow_cache_congr (powf : ℕ → ℚ → ℚ) (days : List ℤ)
    (e e' : LBSEngine) (hc : e'.session.cache = e.session.cache)
    (ht : e'.session.tasks = e.session.tasks)
    (hcfg : e'.config = e.config) :
    (days.foldl (overflow_step powf) e').session.cache =
      (days.foldl (overflow_step powf) e).session.cache := by
  induction days generalizing e e' with
  | nil => simpa using hc
  | cons day rest ih =>
    simp only [List.foldl_cons]
    apply ih
    · rw [overflow_step_eq_setCache, overflow_step_eq_setCache,
        setCache_cache, setCache_cache, hc,
        calculate_daily_load_congr powf e e' hc ht hcfg, hcfg]
    · rw [overflow_step_eq_setCache, overflow_step_eq_setCache,
        setCache_tasks, setCache_tasks, ht]
    · rw [overflow_step_eq_setCache, overflow_step_eq_setCache,
        setCache_config, setCache_config, hcfg]

/-- Replace the engine's exception table (to compare two exception states). -/
def setExceptions (e : LBSEngine) (x : List TaskException) : LBSEngine :=
  { e with session := { e.session with exceptions := x } }

@[simp] theorem setExceptions_exceptions (e : LBSEngine)
    (x : List TaskException) :
    (setExceptions e x).session.exceptions = x := rfl

@[simp] theorem setExceptions_cache (e : LBSEngine)
    (x : List TaskException) :
    (setExceptions e x).session.cache = e.session.cache := rfl

@[simp] theorem setExceptions_tasks (e : LBSEngine)
    (x : List TaskException) :
    (setExceptions e x).session.tasks = e.session.tasks := rfl

@[simp] theorem setExceptions_config (e : LBSEngine)
    (x : List TaskException) :
    (setExceptions e x).config = e.config := rfl

/-- When every exception on the pair is `FORCE_DO`, deleting the pair's
exceptions changes no occurrence: `FORCE_DO` is neither `SKIP` nor
`OVERRIDE_LOAD`, so the resolved load is the base load either way. -/
theorem occurrence_row_force_do (exceptions : List TaskException)
    (tid : String) (d0 : ℤ)
    (hforce : ∀ ex ∈ exceptions, ex.task_id = tid → ex.target_date = d0 →
      ex.exception_type = "FORCE_DO") (now day : ℤ) (t : Task) :
    occurrence_row (exceptions.filter
        (fun ex => ¬(ex.task_id = tid ∧ ex.target_date = d0))) now day t =
      occurrence_row exceptions now day t := by
  unfold occurrence_row
  by_cases ho : should_task_occur t day
  · rw [if_pos ho, if_pos ho]
    congr 1
    by_cases hpair : t.task_id = tid ∧ day = d0
    · have hnone : get_exception (exceptions.filter
          (fun ex => ¬(ex.task_id = tid ∧ ex.target_date = d0)))
            t.task_id day = none := by
        unfold get_exception
        apply List.find?_eq_none.mpr
        intro ex hex
        have hq := List.of_mem_filter hex
        simp only [decide_eq_true_eq] at hq ⊢
        rintro ⟨hid, hdate⟩
        exact hq ⟨hid.trans hpair.1, hdate.trans hpair.2⟩
      rw [hnone]
      cases hexc : get_exception exceptions t.task_id day with
      | none => rfl
      | some ex =>
        have hmem := List.mem_of_find?_eq_some hexc
        have hp := List.find?_some hexc
        simp only [decide_eq_true_eq] at hp
        have htype : ex.exception_type = "FORCE_DO" :=
          hforce ex hmem (hp.1.trans hpair.1) (hp.2.trans hpair.2)
        simp [resolved_load, htype]
    · unfold get_exception
      rw [find?_filter_of_imp]
      intro ex hpx
      simp only [decide_eq_true_eq] at hpx ⊢
      rintro ⟨hid, hdate⟩
      exact hpair ⟨hpx.1.symm.trans hid, hpx.2.symm.trans hdate⟩
  · rw [if_neg ho, if_neg ho]

/-- Expanding with only `FORCE_DO` exceptions on a pair yields the very
cache that expanding with no exception on the pair yields. -/
theorem expand_cache_force_do (powf : ℕ → ℚ → ℚ) (e : LBSEngine)
    (s d now : ℤ) (tid : String) (d0 : ℤ)
    (hforce : ∀ ex ∈ e.session.exceptions, ex.task_id = tid →
      ex.target_date = d0 → ex.exception_type = "FORCE_DO") :
    (expand_tasks powf (setExceptions e (e.session.exceptions.filter
        (fun ex => ¬(ex.task_id = tid ∧ ex.target_date = d0)))) s d
      now).session.cache =
    (expand_tasks powf e s d now).session.cache := by
  rw [expand_tasks_def, expand_tasks_def]
  unfold update_overflow_flags
  have hrows : expanded_rows
      (setExceptions e (e.session.exceptions.filter
        (fun ex => ¬(ex.task_id = tid ∧ ex.target_date = d0)))).session.tasks
      (setExceptions e (e.session.exceptions.filter
        (fun ex => ¬(ex.task_id = tid ∧
          ex.target_date = d0)))).session.exceptions s d now =
      expanded_rows e.session.tasks e.session.exceptions s d now := by
    rw [setExceptions_tasks, setExceptions_exceptions]
    unfold expanded_rows
    congr 1
    funext day
    congr 1
    funext t
    exact occurrence_row_force_do e.session.exceptions tid d0 hforce now day t
  rw [hrows, setExceptions_cache]
  apply update_overflow_cache_congr
  · rw [setCache_cache, setCache_cache]
  · rw [setCache_tasks, setCache_tasks, setExceptions_tasks]
  · rw [setCache_config, setCache_config, setExceptions_config]

/-! ## The class surface (for the external-interface claim)

The method names defined on `class LBSEngine` in
`app/backend/services/lbs_engine.py`, in source order, and the engine
methods invoked by its host `app/backend/api/lbs.py`. -/

/-- Methods defined on `class LBSEngine`. -/
def lbs_engine_method_names : List String :=
  ["__init__", "_load_config", "expand_tasks", "_should_task_occur",
   "_is_nth_weekday", "_get_exception", "_update_overflow_flags",
   "calculate_daily_load", "_get_warning_level", "get_weekly_stats"]

/-- Engine methods the HTTP layer `api/lbs.py` invokes on `LBSEngine`
instances. -/
def api_lbs_engine_calls : List String :=
  ["calculate_daily_load", "expand_tasks", "get_weekly_stats",
   "get_tasks_for_date"]

/-- Field values of `calculate_daily_load` on a date with occurrences. -/
theorem calculate_daily_load_nonempty (powf : ℕ → ℚ → ℚ) (e : LBSEngine)
    (d : ℤ) (hne : daily_entries e.session.cache d ≠ []) :
    (calculate_daily_load powf e d).adjusted_load =
      round2 (raw_adjusted_load powf e d) ∧
    (calculate_daily_load powf e d).level =
      get_warning_level (raw_adjusted_load powf e d) (capOf e.config) ∧
    (calculate_daily_load powf e d).base_load =
      round2 (raw_base_load e d) ∧
    (calculate_daily_load powf e d).count_penalty =
      round2 (raw_count_penalty powf e d) ∧
    (calculate_daily_load powf e d).context_penalty =
      round2 (raw_context_penalty e d) := by
  simp only [calculate_daily_load]
  rw [if_neg hne]
  exact ⟨rfl, rfl, rfl, rfl, rfl⟩

/-! ## Concrete fixtures used by witnesses and counterexamples -/

/-- A sample of Python `**` exact at the arguments the fixtures reach:
`0.0 ** b = 0.0` and `1.0 ** b = 1.0` hold exactly in Python floats. -/
def pow01 : ℕ → ℚ → ℚ := fun n _ => if n = 0 then 0 else 1

/-- An active one-off task: `ONCE`, due on ordinal 40, base load 5. -/
def tOnce : Task :=
  { task_id := "t1", task_name := "n", context := "c", base_load_score := 5,
    active := true, rule_type := "ONCE", due_date := some 40,
    mon := false, tue := false, wed := false, thu := false, fri := false,
    sat := false, sun := false, interval_days := none, anchor_date := none,
    month_day := none, nth_in_month := none, weekday_mon1 := none,
    start_date := none, end_date := none }

/-- The same task, inactive. -/
def tInactive : Task := { tOnce with active := false }

/-- `EVERY_N_DAYS` with a negative interval (anchor ordinal 10). -/
def tEveryNeg : Task :=
  { tOnce with
    rule_type := "EVERY_N_DAYS", due_date := none,
    anchor_date := some 10, interval_days := some (-1) }

/-- `EVERY_N_DAYS`, anchor ordinal 0, every 3 days. -/
def tEvery3 : Task :=
  { tOnce with
    rule_type := "EVERY_N_DAYS", due_date := none,
    anchor_date := some 0, interval_days := some 3 }

/-- `MONTHLY_NTH_WEEKDAY` with `weekday_mon1 = 15`, outside the documented
1–7 domain. -/
def tWk15 : Task :=
  { tOnce with
    rule_type := "MONTHLY_NTH_WEEKDAY", due_date := none,
    nth_in_month := some 1, weekday_mon1 := some 15 }

/-- A task with an unrecognized rule type. -/
def tJunk : Task := { tOnce with rule_type := "FORTNIGHTLY", due_date := none }

/-- The `ONCE` task with base load 7.901 (used for the rounding gap). -/
def tLoad7901 : Task := { tOnce with base_load_score := 7901/1000 }

/-- A cache row with calculated load 1.111 on ordinal 5 for task `t1`. -/
def rowLoad1111 : LBSDailyCache :=
  { target_date := 5, task_id := "t1", calculated_load := 1111/1000,
    rule_type_snapshot := "ONCE", status := "planned",
    is_overflow := false, generated_at := 0 }

/-- Engine with one prebuilt cache row and default (empty) config. -/
def sessC1 : Session :=
  { system_config := [], tasks := [tOnce], exceptions := [],
    cache := [rowLoad1111] }

def engC1 : LBSEngine := { session := sessC1, config := [] }

/-- Engine whose only task is inactive. -/
def sessC2 : Session :=
  { system_config := [], tasks := [tInactive], exceptions := [], cache := [] }

def engC2 : LBSEngine := { session := sessC2, config := [] }

/-- Engine with one active `ONCE` task and empty cache. -/
def sessC5 : Session :=
  { system_config := [], tasks := [tOnce], exceptions := [], cache := [] }

def engC5 : LBSEngine := { session := sessC5, config := [] }

/-- A `FORCE_DO` exception on (`t1`, ordinal 40). -/
def excForce : TaskException :=
  { task_id := "t1", target_date := 40, exception_type := "FORCE_DO",
    override_load_value := none }

/-- Engine with one active `ONCE` task and a `FORCE_DO` exception on its
occurrence. -/
def sessC8 : Session :=
  { system_config := [], tasks := [tOnce], exceptions := [excForce],
    cache := [] }

def engC8 : LBSEngine := { session := sessC8, config := [] }

/-- Engine whose single occurrence carries an unrounded adjusted load of
8.001 against the default CAP of 8. -/
def sessC10 : Session :=
  { system_config := [], tasks := [tLoad7901], exceptions := [], cache := [] }

def engC10 : LBSEngine := { session := sessC10, config := [] }

/-- A config table whose `ALPHA` value does not parse as a float. -/
def sessBadAlpha : Session :=
  { system_config := [{ key := "ALPHA", value := none }], tasks := [],
    exceptions := [], cache := [] }

/-- A config table with only `CAP` present (parseable). -/
def sessOnlyCap : Session :=
  { system_config := [{ key := "CAP", value := some 9 }], tasks := [],
    exceptions := [], cache := [] }

/-! ## Claims -/

/-- C4: `_get_warning_level` applies its thresholds in the order
CRITICAL (`> CAP`), DANGER (`>= 8`), WARNING (`>= 6`), SAFE; in particular
with CAP below 8 any load above CAP is CRITICAL, never DANGER. -/
theorem C4_warning_level_precedence (load cap : ℚ) :
    (get_warning_level load cap = "CRITICAL" ↔ load > cap) ∧
    (get_warning_level load cap = "DANGER" ↔ (¬load > cap ∧ load ≥ 8)) ∧
    (get_warning_level load cap = "WARNING" ↔
      (¬load > cap ∧ ¬load ≥ 8 ∧ load ≥ 6)) ∧
    (get_warning_level load cap = "SAFE" ↔
      (¬load > cap ∧ ¬load ≥ 8 ∧ ¬load ≥ 6)) ∧
    (cap < 8 → load > cap → get_warning_level load cap = "CRITICAL") := by
  unfold get_warning_level
  by_cases h1 : load > cap
  · rw [if_pos h1]
    refine ⟨by simp [h1], ?_, ?_, ?_, fun _ _ => rfl⟩ <;>
      simp [h1, fun h : (("CRITICAL" : String) = _) => h]
  · rw [if_neg h1]
    by_cases h2 : load ≥ 8
    · rw [if_pos h2]
      refine ⟨?_, by simp [h1, h2], ?_, ?_, fun _ hc => absurd hc h1⟩ <;>
        simp [h1, h2]
    · rw [if_neg h2]
      by_cases h3 : load ≥ 6
      · rw [if_pos h3]
        refine ⟨?_, ?_, by simp [h1, h2, h3], ?_,
          fun _ hc => absurd hc h1⟩ <;> simp [h1, h2, h3]
      · rw [if_neg h3]
        refine ⟨?_, ?_, ?_, by simp [h1, h2, h3],
          fun _ hc => absurd hc h1⟩ <;> simp [h1, h2, h3]

theorem C4_warning_level_precedence_witness :
    get_warning_level 7 5 = "CRITICAL" :=
  (C4_warning_level_precedence 7 5).2.2.2.2 (by norm_num) (by norm_num)

/-- C9: the HTTP layer calls `engine.get_tasks_for_date(...)` but
`class LBSEngine` defines no such method (nor any `tasks_for_date`), so the
advertised operation raises `AttributeError` whenever it is invoked. -/
theorem C9_get_tasks_for_date_missing :
    "get_tasks_for_date" ∈ api_lbs_engine_calls ∧
    "get_tasks_for_date" ∉ lbs_engine_method_names ∧
    "tasks_for_date" ∉ lbs_engine_method_names := by
  decide

/-- C3 counterexample: an `EVERY_N_DAYS` task with `interval_days = -1`
(not `> 0`) still matches on its anchor date, because the source only
rejects `interval_days` that are `None` or `0` (Python falsiness) and
`0 % -1 == 0`. -/
theorem C3_counterexample :
    should_task_occur tEveryNeg 10 = true ∧
    ¬∃ k, tEveryNeg.interval_days = some k ∧ 0 < k := by
  constructor
  · decide
  · rintro ⟨k, hk, hpos⟩
    have : k = -1 := by
      have : tEveryNeg.interval_days = some (-1) := by decide
      rw [this] at hk
      exact (Option.some_inj.mp hk).symm
    omega

/-- C3 (amended): inside the validity window, an `EVERY_N_DAYS` task matches
exactly when `anchor_date` is set, `interval_days` is set and **nonzero**
(not necessarily positive), the day difference is nonnegative and
`interval_days` divides it. -/
theorem C3_every_n_days (t : Task) (d : ℤ)
    (hrule : t.rule_type = "EVERY_N_DAYS")
    (hs : ∀ s, t.start_date = some s → s ≤ d)
    (he : ∀ e, t.end_date = some e → d ≤ e) :
    should_task_occur t d = true ↔
      ∃ a k, t.anchor_date = some a ∧ t.interval_days = some k ∧ k ≠ 0 ∧
        0 ≤ d - a ∧ k ∣ (d - a) := by
  unfold should_task_occur
  have hw1 : (match t.start_date with
      | some s => decide (d < s)
      | none => false) = false := by
    cases hsd : t.start_date with
    | none => rfl
    | some s =>
      simp only [decide_eq_false_iff_not, not_lt]
      exact hs s hsd
  have hw2 : (match t.end_date with
      | some e => decide (d > e)
      | none => false) = false := by
    cases hed : t.end_date with
    | none => rfl
    | some e =>
      simp only [decide_eq_false_iff_not, gt_iff_lt, not_lt]
      exact he e hed
  rw [hw1, hw2]
  simp only [Bool.false_eq_true, if_false]
  rw [hrule]
  rw [if_neg (by decide), if_neg (by decide), if_pos rfl]
  cases ha : t.anchor_date with
  | none =>
    cases hk : t.interval_days with
    | none =>
      show false = true ↔ _
      simp
    | some k =>
      show false = true ↔ _
      simp
  | some a =>
    cases hk : t.interval_days with
    | none =>
      show false = true ↔ _
      simp
    | some k =>
      show (if k = 0 then false
        else decide (d - a ≥ 0) && decide ((d - a) % k = 0)) = true ↔ _
      by_cases hk0 : k = 0
      · subst hk0
        rw [if_pos rfl]
        simp
      · rw [if_neg hk0]
        simp only [Bool.and_eq_true, decide_eq_true_eq, Option.some_inj]
        constructor
        · rintro ⟨hge, hmod⟩
          exact ⟨a, k, rfl, rfl, hk0, by omega,
            Int.dvd_of_emod_eq_zero hmod⟩
        · rintro ⟨a', k', ha', hk', hk0', hge, hdvd⟩
          obtain rfl : a' = a := ha'.symm
          obtain rfl : k' = k := hk'.symm
          exact ⟨by omega, Int.emod_eq_zero_of_dvd hdvd⟩

theorem C3_every_n_days_witness : should_task_occur tEvery3 6 = true :=
  (C3_every_n_days tEvery3 6 rfl (fun s h => by cases h)
    (fun e h => by cases h)).mpr
    ⟨0, 3, rfl, rfl, by decide, by decide, by decide⟩

/-- C7 counterexample: a task with the contradictory parameter
`weekday_mon1 = 15` (the documented domain is 1–7) does not degrade to
"never matches": `(15 - 1) % 7 == 0` makes it behave like Monday, and it
matches the first Monday of a month (ordinal 1 is 0001-01-01, a Monday). -/
theorem C7_counterexample :
    should_task_occur tWk15 1 = true ∧
    ¬∃ w, tWk15.weekday_mon1 = some w ∧ 1 ≤ w ∧ w ≤ 7 := by
  constructor
  · decide
  · rintro ⟨w, hw, h1, h7⟩
    have : tWk15.weekday_mon1 = some 15 := by decide
    rw [this] at hw
    have : w = 15 := (Option.some_inj.mp hw).symm
    omega

/-- C7 (amended): the matcher is total by construction and returns `false`
for an unrecognized `rule_type` and for unset/incomplete parameters (a
required parameter that is `None`, or `0` under Python falsiness); however
out-of-range values (negative intervals, `month_day > 31`,
`weekday_mon1` outside 1–7) are not rejected and can still match. -/
theorem C7_malformed_rules (t : Task) (d : ℤ) :
    (t.rule_type ∉ ["ONCE", "WEEKLY", "EVERY_N_DAYS", "MONTHLY_DAY",
      "MONTHLY_NTH_WEEKDAY"] → should_task_occur t d = false) ∧
    (t.rule_type = "ONCE" → t.due_date = none →
      should_task_occur t d = false) ∧
    (t.rule_type = "EVERY_N_DAYS" →
      (t.anchor_date = none ∨ t.interval_days = none ∨
        t.interval_days = some 0) → should_task_occur t d = false) ∧
    (t.rule_type = "MONTHLY_DAY" →
      (t.month_day = none ∨ t.month_day = some 0) →
      should_task_occur t d = false) ∧
    (t.rule_type = "MONTHLY_NTH_WEEKDAY" →
      (t.nth_in_month = none ∨ t.nth_in_month = some 0 ∨
        t.weekday_mon1 = none ∨ t.weekday_mon1 = some 0) →
      should_task_occur t d = false) := by
  unfold should_task_occur
  split
  · exact ⟨fun _ => rfl, fun _ _ => rfl, fun _ _ => rfl, fun _ _ => rfl,
      fun _ _ => rfl⟩
  split
  · exact ⟨fun _ => rfl, fun _ _ => rfl, fun _ _ => rfl, fun _ _ => rfl,
      fun _ _ => rfl⟩
  refine ⟨?_, ?_, ?_, ?_, ?_⟩
  · intro hmem
    simp only [List.mem_cons, List.not_mem_nil, or_false, not_or] at hmem
    obtain ⟨h1, h2, h3, h4, h5⟩ := hmem
    rw [if_neg h1, if_neg h2, if_neg h3, if_neg h4, if_neg h5]
  · intro hrule hdue
    rw [if_pos hrule, hdue]
    simp
  · intro hrule hbad
    rw [if_neg (by rw [hrule]; decide), if_neg (by rw [hrule]; decide),
      if_pos hrule]
    rcases hbad with h | h | h
    · simp [h]
    · cases t.anchor_date <;> simp [h]
    · cases t.anchor_date <;> simp [h]
  · intro hrule hbad
    rw [if_neg (by rw [hrule]; decide), if_neg (by rw [hrule]; decide),
      if_neg (by rw [hrule]; decide), if_pos hrule]
    rcases hbad with h | h <;> simp [h]
  · intro hrule hbad
    rw [if_neg (by rw [hrule]; decide), if_neg (by rw [hrule]; decide),
      if_neg (by rw [hrule]; decide), if_neg (by rw [hrule]; decide),
      if_pos hrule]
    rcases hbad with h | h | h | h <;>
      simp [intTruthy, h]

theorem C7_malformed_rules_witness : should_task_occur tJunk 0 = false :=
  (C7_malformed_rules tJunk 0).1 (by decide)

/-- Parsing the config table succeeds when every value parses, and keeps the
keys. -/
theorem load_config_ok (rows : List SystemConfigRow)
    (h : ∀ r ∈ rows, r.value.isSome) :
    ∃ cfg, load_config rows = Except.ok cfg ∧
      cfg.map Prod.fst = rows.map SystemConfigRow.key := by
  induction rows with
  | nil => exact ⟨[], rfl, rfl⟩
  | cons r rest ih =>
    obtain ⟨cfg, hok, hkeys⟩ := ih (fun x hx => h x (List.mem_cons_of_mem _ hx))
    cases hv : r.value with
    | none =>
      have := h r (List.mem_cons_self _ _)
      rw [hv] at this
      cases this
    | some v =>
      refine ⟨(r.key, v) :: cfg, ?_, ?_⟩
      · unfold load_config
        unfold load_config at hok
        rw [List.foldr_cons, hok, hv]
      · simp [hkeys]

/-- `dict.get` falls back to its default when the key is absent. -/
theorem cfgGet_default (cfg : List (String × ℚ)) (k : String) (dflt : ℚ)
    (hk : k ∉ cfg.map Prod.fst) : cfgGet cfg k dflt = dflt := by
  unfold cfgGet
  have : cfg.reverse.find? (fun p => p.1 == k) = none := by
    apply List.find?_eq_none.mpr
    intro p hp
    have : p.1 ∈ cfg.map Prod.fst :=
      List.mem_map_of_mem Prod.fst (List.mem_reverse.mp hp)
    simp only [beq_iff_eq]
    intro hc
    exact hk (hc ▸ this)
  rw [this]

/-- C6 counterexample: a config row whose value Python's `float()` cannot
parse makes `LBSEngine.__init__` raise `ValueError`: construction fails
instead of defaulting. -/
theorem C6_counterexample :
    LBSEngine.construct sessBadAlpha = Except.error () := rfl

/-- C6 (amended): when every stored config value parses, construction
succeeds, and each of the four keys that is missing from the store makes
the engine compute with its documented default (ALPHA 0.1, BETA 1.2,
CAP 8.0, SWITCH_COST 0.5); a present but unparseable value, however, fails
construction (see the counterexample). -/
theorem C6_config_defaults (sess : Session)
    (hparse : ∀ r ∈ sess.system_config, r.value.isSome) :
    ∃ eng, LBSEngine.construct sess = Except.ok eng ∧
      ("ALPHA" ∉ sess.system_config.map SystemConfigRow.key →
        alphaOf eng.config = 1/10) ∧
      ("BETA" ∉ sess.system_config.map SystemConfigRow.key →
        betaOf eng.config = 6/5) ∧
      ("CAP" ∉ sess.system_config.map SystemConfigRow.key →
        capOf eng.config = 8) ∧
      ("SWITCH_COST" ∉ sess.system_config.map SystemConfigRow.key →
        switchCostOf eng.config = 1/2) := by
  obtain ⟨cfg, hok, hkeys⟩ := load_config_ok sess.system_config hparse
  refine ⟨⟨sess, cfg⟩, ?_, ?_, ?_, ?_, ?_⟩
  · unfold LBSEngine.construct
    rw [hok]
    rfl
  · intro hmem
    exact cfgGet_default cfg "ALPHA" (1/10) (hkeys ▸ hmem)
  · intro hmem
    exact cfgGet_default cfg "BETA" (6/5) (hkeys ▸ hmem)
  · intro hmem
    exact cfgGet_default cfg "CAP" 8 (hkeys ▸ hmem)
  · intro hmem
    exact cfgGet_default cfg "SWITCH_COST" (1/2) (hkeys ▸ hmem)

theorem C6_config_defaults_witness :
    ∃ eng, LBSEngine.construct sessOnlyCap = Except.ok eng ∧
      ("ALPHA" ∉ sessOnlyCap.system_config.map SystemConfigRow.key →
        alphaOf eng.config = 1/10) ∧
      ("BETA" ∉ sessOnlyCap.system_config.map SystemConfigRow.key →
        betaOf eng.config = 6/5) ∧
      ("CAP" ∉ sessOnlyCap.system_config.map SystemConfigRow.key →
        capOf eng.config = 8) ∧
      ("SWITCH_COST" ∉ sessOnlyCap.system_config.map SystemConfigRow.key →
        switchCostOf eng.config = 1/2) :=
  C6_config_defaults sessOnlyCap (by decide)

/-- C1 (amended): `calculate_daily_load` returns as `adjusted_load` the
formula value **rounded to two decimals** (`round(x, 2)`), where the base
load is the sum of `calculated_load` over the non-skipped cache rows of the
date, the task count is their number, and the context count is the number
of distinct looked-up task contexts among them.  The hypothesis
`powf 0 β = 0` is Python's exact `0.0 ** β == 0.0`, which makes the
zero-occurrence short-circuit agree with the formula. -/
theorem C1_adjusted_load_formula (powf : ℕ → ℚ → ℚ) (e : LBSEngine) (d : ℤ)
    (h0 : powf 0 (betaOf e.config) = 0) :
    (calculate_daily_load powf e d).adjusted_load =
      round2 (((daily_entries e.session.cache d).map
          (fun r => r.calculated_load)).sum +
        alphaOf e.config *
          powf (daily_entries e.session.cache d).length (betaOf e.config) +
        switchCostOf e.config *
          max ((((daily_entries e.session.cache d).map
            (fun r => contextOf e.session.tasks r.task_id)).dedup.length : ℤ)
              - 1) 0) := by
  unfold calculate_daily_load
  by_cases hne : daily_entries e.session.cache d = []
  · rw [if_pos hne, hne]
    simp only [List.map_nil, List.sum_nil, List.length_nil, List.dedup_nil,
      h0]
    have hmax : max (((0 : ℕ) : ℤ) - 1) 0 = 0 := by simp
    rw [hmax]
    have hz : (0 : ℚ) + alphaOf e.config * 0 + switchCostOf e.config *
        ((0 : ℤ) : ℚ) = 0 := by
      push_cast
      ring
    rw [hz]
    norm_num [round2, pyRoundHalfEven, ratFloor]
  · rw [if_neg hne]
    rfl

theorem C1_adjusted_load_formula_witness :
    (calculate_daily_load pow01 engC1 5).adjusted_load =
      round2 (((daily_entries engC1.session.cache 5).map
          (fun r => r.calculated_load)).sum +
        alphaOf engC1.config *
          pow01 (daily_entries engC1.session.cache 5).length
            (betaOf engC1.config) +
        switchCostOf engC1.config *
          max ((((daily_entries engC1.session.cache 5).map
            (fun r => contextOf engC1.session.tasks r.task_id)).dedup.length
              : ℤ) - 1) 0) :=
  C1_adjusted_load_formula pow01 engC1 5 rfl

/-- C1 counterexample: with one non-skipped entry of load 1.111 and default
coefficients, the exact formula yields 1.211 but the returned
`adjusted_load` is the rounded 1.21 — not equal within floating tolerance
(the difference is 0.001). -/
theorem C1_counterexample :
    (calculate_daily_load pow01 engC1 5).adjusted_load = 121/100 ∧
    ((daily_entries engC1.session.cache 5).map
        (fun r => r.calculated_load)).sum +
      alphaOf engC1.config *
        pow01 (daily_entries engC1.session.cache 5).length
          (betaOf engC1.config) +
      switchCostOf engC1.config *
        max ((((daily_entries engC1.session.cache 5).map
          (fun r => contextOf engC1.session.tasks r.task_id)).dedup.length
            : ℤ) - 1) 0 = 1211/1000 ∧
    (121/100 : ℚ) ≠ 1211/1000 := by
  have hentries : daily_entries engC1.session.cache 5 = [rowLoad1111] := by
    simp [daily_entries, engC1, sessC1, rowLoad1111]
  have hform : ((daily_entries engC1.session.cache 5).map
      (fun r => r.calculated_load)).sum +
      alphaOf engC1.config *
        pow01 (daily_entries engC1.session.cache 5).length
          (betaOf engC1.config) +
      switchCostOf engC1.config *
        max ((((daily_entries engC1.session.cache 5).map
          (fun r => contextOf engC1.session.tasks r.task_id)).dedup.length
            : ℤ) - 1) 0 = 1211/1000 := by
    rw [hentries]
    simp only [List.map_cons, List.map_nil, List.sum_cons, List.sum_nil,
      List.length_cons, List.length_nil]
    norm_num [alphaOf, betaOf, switchCostOf, cfgGet, engC1, pow01,
      rowLoad1111]
  have hraw : raw_adjusted_load pow01 engC1 5 = 1211/1000 := by
    unfold raw_adjusted_load raw_base_load raw_count_penalty
      raw_context_penalty unique_contexts_of
    exact hform
  have hne : daily_entries engC1.session.cache 5 ≠ [] := by
    rw [hentries]
    exact List.cons_ne_nil _ _
  refine ⟨?_, hform, by norm_num⟩
  rw [(calculate_daily_load_nonempty pow01 engC1 5 hne).1, hraw]
  norm_num [round2, pyRoundHalfEven, ratFloor]

@[simp] theorem overflow_apply_calculated_load (powf : ℕ → ℚ → ℚ)
    (e : LBSEngine) (days : List ℤ) (r : LBSDailyCache) :
    (overflow_apply powf e days r).calculated_load = r.calculated_load := by
  unfold overflow_apply
  by_cases h : r.target_date ∈ days
  · rw [if_pos h]; rfl
  · rw [if_neg h]

theorem overflow_apply_flag_class (powf : ℕ → ℚ → ℚ) (e : LBSEngine)
    (days : List ℤ) :
    ∀ r, ∃ b, overflow_apply powf e days r = setOverflow r b := by
  intro r
  unfold overflow_apply
  by_cases h : r.target_date ∈ days
  · rw [if_pos h]; exact ⟨_, rfl⟩
  · rw [if_neg h]; exact ⟨r.is_overflow, rfl⟩

/-- C2 counterexample: an inactive task whose rule matches a date in the
expanded range with no `SKIP` exception still yields no cache row — the
"row exists iff Rule Matcher true and no SKIP" direction fails because
`expand_tasks` only walks `active == true` tasks. -/
theorem C2_counterexample :
    should_task_occur tInactive 40 = true ∧
    engC2.session.exceptions = [] ∧
    (expand_tasks pow01 engC2 40 40 0).session.cache = [] := by
  refine ⟨by decide, rfl, ?_⟩
  have hdr : dateRange 40 40 = [40] := by
    rw [dateRange, dateRange]
    norm_num
  have hrows : expanded_rows [tInactive] [] 40 40 0 = [] := by
    simp only [expanded_rows, hdr, List.flatMap_cons, List.flatMap_nil,
      List.append_nil]
    rw [List.filter_cons_of_neg (by decide), List.filter_nil]
    rfl
  rw [expand_tasks_def]
  unfold update_overflow_flags
  rw [hdr]
  rw [show engC2.session.cache = [] from rfl,
    show engC2.session.tasks = [tInactive] from rfl,
    show engC2.session.exceptions = [] from rfl]
  rw [show kept_rows [] 40 40 = [] from rfl, hrows]
  simp only [List.foldl_cons, List.foldl_nil, overflow_step_eq_setCache,
    setCache_cache, setCache_setCache, List.nil_append, List.map_nil]

/-- C2 (amended): after `expand_tasks(s, d)`, for a catalog task `t` and a
date `d0` in the range — assuming the database invariants that task ids are
unique and at most one exception targets the pair — the cache holds at most
one row for (t.task_id, d0), and holds exactly one iff `t` is **active**,
the Rule Matcher fires, and no `SKIP` exception targets the pair. -/
theorem C2_expansion_invariant (powf : ℕ → ℚ → ℚ) (e : LBSEngine)
    (s d now : ℤ) (tid : String) (d0 : ℤ) (t : Task)
    (hnt : (e.session.tasks.map Task.task_id).Nodup)
    (ht : t ∈ e.session.tasks) (hid : t.task_id = tid)
    (hexu : (e.session.exceptions.filter
      (fun ex => ex.task_id = tid ∧ ex.target_date = d0)).length ≤ 1)
    (hs : s ≤ d0) (hd : d0 ≤ d) :
    (pair_rows (expand_tasks powf e s d now).session.cache tid
      d0).length ≤ 1 ∧
    ((pair_rows (expand_tasks powf e s d now).session.cache tid
        d0).length = 1 ↔
      (t.active ∧ should_task_occur t d0 ∧
        ∀ ex ∈ e.session.exceptions, ex.task_id = tid →
          ex.target_date = d0 → ex.exception_type ≠ "SKIP")) := by
  rw [expand_pair_rows_length powf e s d now tid d0 hnt hs hd]
  rw [← hid] at hexu
  constructor
  · by_cases hex : ∃ t' ∈ e.session.tasks, t'.task_id = tid ∧ t'.active ∧
        (occurrence_row e.session.exceptions now d0 t').isSome
    · rw [if_pos hex]
    · rw [if_neg hex]; omega
  · by_cases hex : ∃ t' ∈ e.session.tasks, t'.task_id = tid ∧ t'.active ∧
        (occurrence_row e.session.exceptions now d0 t').isSome
    · rw [if_pos hex]
      apply iff_of_true rfl
      obtain ⟨t', ht', hid', hact', hsome'⟩ := hex
      have hteq : t' = t := by
        apply List.inj_on_of_nodup_map hnt ht' ht
        rw [hid', hid]
      subst hteq
      obtain ⟨hocc, hfirst⟩ :=
        (occurrence_row_isSome e.session.exceptions now d0 t').mp hsome'
      refine ⟨hact', hocc, ?_⟩
      intro ex hexmem hexid hexdate
      apply hfirst
      unfold get_exception
      apply find?_eq_of_mem_of_unique _ _ hexu ex hexmem
      simp only [decide_eq_true_eq]
      exact ⟨hexid.trans hid.symm, hexdate⟩
    · rw [if_neg hex]
      apply iff_of_false (by omega)
      rintro ⟨hact, hocc, hnoskip⟩
      apply hex
      refine ⟨t, ht, hid, hact, ?_⟩
      apply (occurrence_row_isSome e.session.exceptions now d0 t).mpr
      refine ⟨hocc, ?_⟩
      intro exc hfind
      have hmem := List.mem_of_find?_eq_some hfind
      have hp := List.find?_some hfind
      simp only [decide_eq_true_eq] at hp
      exact hnoskip exc hmem (hp.1.trans hid) hp.2

theorem C2_expansion_invariant_witness :
    (pair_rows (expand_tasks pow01 engC5 40 40 0).session.cache "t1"
      40).length ≤ 1 ∧
    ((pair_rows (expand_tasks pow01 engC5 40 40 0).session.cache "t1"
        40).length = 1 ↔
      (tOnce.active ∧ should_task_occur tOnce 40 ∧
        ∀ ex ∈ engC5.session.exceptions, ex.task_id = "t1" →
          ex.target_date = 40 → ex.exception_type ≠ "SKIP")) :=
  C2_expansion_invariant pow01 engC5 40 40 0 "t1" 40 tOnce (by decide)
    (List.mem_cons_self _ _) rfl (by decide) (by decide) (by decide)

/-- The single occurrence row `engC5`'s expansion inserts when stamped at
insertion time `n`. -/
def rowOnce (n : ℤ) : LBSDailyCache :=
  { target_date := 40, task_id := "t1", calculated_load := 5,
    rule_type_snapshot := "ONCE", status := "planned",
    is_overflow := false, generated_at := n }

theorem engC5_expand (n : ℤ) :
    expand_tasks pow01 engC5 40 40 n = setCache engC5 [rowOnce n] := by
  have hdr : dateRange 40 40 = [40] := by
    rw [dateRange, dateRange]
    norm_num
  have hocc : occurrence_row [] n 40 tOnce = some (rowOnce n) := by
    simp [occurrence_row, get_exception, should_task_occur, resolved_load,
      tOnce, rowOnce]
  have hrows : expanded_rows [tOnce] [] 40 40 n = [rowOnce n] := by
    simp only [expanded_rows, hdr, List.flatMap_cons, List.flatMap_nil,
      List.append_nil, List.filter_cons, show tOnce.active = true from rfl,
      if_true, List.filter_nil, List.filterMap_cons, hocc,
      List.filterMap_nil]
  have hentries : daily_entries [rowOnce n] 40 = [rowOnce n] := by
    simp [daily_entries, rowOnce]
  have hadj : (calculate_daily_load pow01 (setCache engC5 [rowOnce n])
      40).adjusted_load = round2 (51/10) := by
    have hne : daily_entries (setCache engC5
        [rowOnce n]).session.cache 40 ≠ [] := by
      rw [setCache_cache, hentries]
      exact List.cons_ne_nil _ _
    rw [(calculate_daily_load_nonempty pow01 _ 40 hne).1]
    congr 1
    unfold raw_adjusted_load raw_base_load raw_count_penalty
      raw_context_penalty unique_contexts_of
    rw [setCache_cache, hentries]
    simp only [List.map_cons, List.map_nil, List.sum_cons, List.sum_nil,
      List.length_cons, List.length_nil]
    norm_num [alphaOf, betaOf, switchCostOf, cfgGet, pow01, rowOnce,
      engC5, sessC5]
  have hflag : decide ((calculate_daily_load pow01
      (setCache engC5 [rowOnce n]) 40).adjusted_load >
        capOf (setCache engC5 [rowOnce n]).config) = false := by
    rw [hadj]
    norm_num [capOf, cfgGet, engC5, round2, pyRoundHalfEven, ratFloor]
  have hstep : overflow_step pow01 (setCache engC5 [rowOnce n]) 40 =
      setCache engC5 [rowOnce n] := by
    rw [overflow_step_eq_setCache]
    rw [hflag]
    rw [setCache_cache, setCache_setCache]
    have hmap : [rowOnce n].map (fun r =>
        if r.target_date = 40 then setOverflow r false else r) =
        [rowOnce n] := by
      simp [rowOnce, setOverflow]
    rw [hmap]
  rw [expand_tasks_def]
  unfold update_overflow_flags
  rw [hdr]
  rw [show engC5.session.cache = [] from rfl,
    show engC5.session.tasks = [tOnce] from rfl,
    show engC5.session.exceptions = [] from rfl]
  rw [show kept_rows [] 40 40 = [] from rfl, hrows]
  rw [List.nil_append]
  rw [List.foldl_cons, List.foldl_nil]
  exact hstep

/-- C5 (amended): re-running `expand` over the same range with no
intervening task/exception change reproduces, at the second call's
insertion timestamp, exactly the state a single expansion produces; all
semantic row fields are byte-identical, and the full cache (the
`generated_at` stamp included) is byte-identical precisely when the two
calls stamp the same insertion time (`t2 = t1`). -/
theorem C5_expand_idempotent (powf : ℕ → ℚ → ℚ) (e : LBSEngine)
    (s d t1 t2 : ℤ) :
    expand_tasks powf (expand_tasks powf e s d t1) s d t2 =
      expand_tasks powf e s d t2 :=
  expand_tasks_idem powf e s d t1 t2

/-- C5 counterexample: the cache is not byte-identical across two
expansions stamped at different times — the rows differ in their
`generated_at` column (`datetime.utcnow` at insertion). -/
theorem C5_counterexample :
    (expand_tasks pow01 (expand_tasks pow01 engC5 40 40 0) 40 40
      1).session.cache ≠ (expand_tasks pow01 engC5 40 40 0).session.cache := by
  rw [expand_tasks_idem, engC5_expand 1, engC5_expand 0]
  intro h
  rw [setCache_cache, setCache_cache] at h
  have hgen := congrArg
    (fun l : List LBSDailyCache => l.map (fun r => r.generated_at)) h
  simp [rowOnce] at hgen

/-- Engine with an inactive task and a `FORCE_DO` exception on its
occurrence. -/
def sessC8i : Session :=
  { system_config := [], tasks := [tInactive], exceptions := [excForce],
    cache := [] }

def engC8i : LBSEngine := { session := sessC8i, config := [] }

/-- C8 counterexample: under a `FORCE_DO` exception the occurrence is *not*
present "iff the Rule Matcher matches": an inactive task matches the rule
yet yields no row (and `FORCE_DO` does not force one). -/
theorem C8_counterexample :
    should_task_occur tInactive 40 = true ∧
    engC8i.session.exceptions = [excForce] ∧
    excForce.exception_type = "FORCE_DO" ∧
    (expand_tasks pow01 engC8i 40 40 0).session.cache = [] := by
  refine ⟨by decide, rfl, rfl, ?_⟩
  have hdr : dateRange 40 40 = [40] := by
    rw [dateRange, dateRange]
    norm_num
  have hrows : expanded_rows [tInactive] [excForce] 40 40 0 = [] := by
    simp only [expanded_rows, hdr, List.flatMap_cons, List.flatMap_nil,
      List.append_nil]
    rw [List.filter_cons_of_neg (by decide), List.filter_nil]
    rfl
  rw [expand_tasks_def]
  unfold update_overflow_flags
  rw [hdr]
  rw [show engC8i.session.cache = [] from rfl,
    show engC8i.session.tasks = [tInactive] from rfl,
    show engC8i.session.exceptions = [excForce] from rfl]
  rw [show kept_rows [] 40 40 = [] from rfl, hrows]
  simp only [List.foldl_cons, List.foldl_nil, overflow_step_eq_setCache,
    setCache_cache, setCache_setCache, List.nil_append, List.map_nil]

/-- C8 (amended): a `FORCE_DO` exception has no effect on expansion. When
every exception targeting the pair (tid, d0) is `FORCE_DO`, (1) the cache
after expansion is byte-identical to the cache after expansion with the
pair's exceptions deleted, (2) the pair's occurrence exists iff the task
with that id is **active** and the Rule Matcher matches, and (3) any row
for the pair carries `calculated_load = base_load_score`. -/
theorem C8_force_do_no_effect (powf : ℕ → ℚ → ℚ) (e : LBSEngine)
    (s d now : ℤ) (tid : String) (d0 : ℤ) (t : Task)
    (hforce : ∀ ex ∈ e.session.exceptions, ex.task_id = tid →
      ex.target_date = d0 → ex.exception_type = "FORCE_DO")
    (hnt : (e.session.tasks.map Task.task_id).Nodup)
    (ht : t ∈ e.session.tasks) (hid : t.task_id = tid)
    (hs : s ≤ d0) (hd : d0 ≤ d) :
    ((expand_tasks powf (setExceptions e (e.session.exceptions.filter
        (fun ex => ¬(ex.task_id = tid ∧ ex.target_date = d0)))) s d
      now).session.cache = (expand_tasks powf e s d now).session.cache) ∧
    ((pair_rows (expand_tasks powf e s d now).session.cache tid
        d0).length = 1 ↔ (t.active ∧ should_task_occur t d0)) ∧
    (∀ r ∈ (expand_tasks powf e s d now).session.cache, r.task_id = tid →
      r.target_date = d0 → r.calculated_load = t.base_load_score) := by
  refine ⟨expand_cache_force_do powf e s d now tid d0 hforce, ?_, ?_⟩
  · rw [expand_pair_rows_length powf e s d now tid d0 hnt hs hd]
    by_cases hex : ∃ t' ∈ e.session.tasks, t'.task_id = tid ∧ t'.active ∧
        (occurrence_row e.session.exceptions now d0 t').isSome
    · rw [if_pos hex]
      apply iff_of_true rfl
      obtain ⟨t', ht', hid', hact', hsome'⟩ := hex
      have hteq : t' = t := by
        apply List.inj_on_of_nodup_map hnt ht' ht
        rw [hid', hid]
      subst hteq
      obtain ⟨hocc, _⟩ :=
        (occurrence_row_isSome e.session.exceptions now d0 t').mp hsome'
      exact ⟨hact', hocc⟩
    · rw [if_neg hex]
      apply iff_of_false (by omega)
      rintro ⟨hact, hocc⟩
      apply hex
      refine ⟨t, ht, hid, hact, ?_⟩
      apply (occurrence_row_isSome e.session.exceptions now d0 t).mpr
      refine ⟨hocc, ?_⟩
      intro exc hfind
      have hmem := List.mem_of_find?_eq_some hfind
      have hp := List.find?_some hfind
      simp only [decide_eq_true_eq] at hp
      rw [hforce exc hmem (hp.1.trans hid) hp.2]
      decide
  · intro r hr hidr hdater
    rw [expand_tasks_def] at hr
    unfold update_overflow_flags at hr
    rw [update_overflow_flags_spec powf _ (dateRange_nodup s d),
      setCache_cache] at hr
    obtain ⟨r0, hr0, rfl⟩ := List.mem_map.mp hr
    rw [overflow_apply_task_id] at hidr
    rw [overflow_apply_target_date] at hdater
    rw [overflow_apply_calculated_load]
    rw [setCache_cache] at hr0
    rcases List.mem_append.mp hr0 with hkept | hnew
    · exfalso
      unfold kept_rows at hkept
      have h1 := List.of_mem_filter hkept
      have hout : ¬(s ≤ r0.target_date ∧ r0.target_date ≤ d) :=
        of_decide_eq_true h1
      exact hout ⟨hdater ▸ hs, hdater ▸ hd⟩
    · unfold expanded_rows at hnew
      obtain ⟨day, hday, hnew⟩ := List.mem_flatMap.mp hnew
      obtain ⟨t', ht', hocc'⟩ := List.mem_filterMap.mp hnew
      have hdate0 := occurrence_row_date _ _ _ _ _ hocc'
      have hid0 := occurrence_row_task_id _ _ _ _ _ hocc'
      have hday0 : day = d0 := by rw [← hdate0, hdater]
      subst hday0
      have ht'mem : t' ∈ e.session.tasks := (List.mem_filter.mp ht').1
      have hteq : t' = t := by
        apply List.inj_on_of_nodup_map hnt ht'mem ht
        rw [hid]
        rw [← hid0, hidr]
      subst hteq
      apply occurrence_row_load _ _ _ _ _ hocc'
      intro exc hfind
      have hmem := List.mem_of_find?_eq_some hfind
      have hp := List.find?_some hfind
      simp only [decide_eq_true_eq] at hp
      rw [hforce exc hmem (hp.1.trans hid) hp.2]
      decide

theorem C8_force_do_no_effect_witness :
    ((expand_tasks pow01 (setExceptions engC8
        (engC8.session.exceptions.filter
          (fun ex => ¬(ex.task_id = "t1" ∧ ex.target_date = 40)))) 40 40
      0).session.cache =
        (expand_tasks pow01 engC8 40 40 0).session.cache) ∧
    ((pair_rows (expand_tasks pow01 engC8 40 40 0).session.cache "t1"
        40).length = 1 ↔ (tOnce.active ∧ should_task_occur tOnce 40)) ∧
    (∀ r ∈ (expand_tasks pow01 engC8 40 40 0).session.cache,
      r.task_id = "t1" → r.target_date = 40 →
        r.calculated_load = tOnce.base_load_score) :=
  C8_force_do_no_effect pow01 engC8 40 40 0 "t1" 40 tOnce (by decide)
    (by decide) (List.mem_cons_self _ _) rfl (by decide) (by decide)

/-- The single occurrence row `engC10`'s expansion inserts. -/
def rowC10 : LBSDailyCache :=
  { target_date := 40, task_id := "t1", calculated_load := 7901/1000,
    rule_type_snapshot := "ONCE", status := "planned",
    is_overflow := false, generated_at := 0 }

theorem engC10_expand :
    expand_tasks pow01 engC10 40 40 0 = setCache engC10 [rowC10] := by
  have hdr : dateRange 40 40 = [40] := by
    rw [dateRange, dateRange]
    norm_num
  have hocc : occurrence_row [] 0 40 tLoad7901 = some rowC10 := by
    simp [occurrence_row, get_exception, should_task_occur, resolved_load,
      tLoad7901, tOnce, rowC10]
  have hrows : expanded_rows [tLoad7901] [] 40 40 0 = [rowC10] := by
    simp only [expanded_rows, hdr, List.flatMap_cons, List.flatMap_nil,
      List.append_nil, List.filter_cons,
      show tLoad7901.active = true from rfl, if_true, List.filter_nil,
      List.filterMap_cons, hocc, List.filterMap_nil]
  have hentries : daily_entries [rowC10] 40 = [rowC10] := by
    simp [daily_entries, rowC10]
  have hadj : (calculate_daily_load pow01 (setCache engC10 [rowC10])
      40).adjusted_load = round2 (8001/1000) := by
    have hne : daily_entries (setCache engC10
        [rowC10]).session.cache 40 ≠ [] := by
      rw [setCache_cache, hentries]
      exact List.cons_ne_nil _ _
    rw [(calculate_daily_load_nonempty pow01 _ 40 hne).1]
    congr 1
    unfold raw_adjusted_load raw_base_load raw_count_penalty
      raw_context_penalty unique_contexts_of
    rw [setCache_cache, hentries]
    simp only [List.map_cons, List.map_nil, List.sum_cons, List.sum_nil,
      List.length_cons, List.length_nil]
    norm_num [alphaOf, betaOf, switchCostOf, cfgGet, pow01, rowC10,
      engC10, sessC10]
  have hflag : decide ((calculate_daily_load pow01
      (setCache engC10 [rowC10]) 40).adjusted_load >
        capOf (setCache engC10 [rowC10]).config) = false := by
    rw [hadj]
    norm_num [capOf, cfgGet, engC10, round2, pyRoundHalfEven, ratFloor]
  have hstep : overflow_step pow01 (setCache engC10 [rowC10]) 40 =
      setCache engC10 [rowC10] := by
    rw [overflow_step_eq_setCache]
    rw [hflag]
    rw [setCache_cache, setCache_setCache]
    have hmap : [rowC10].map (fun r =>
        if r.target_date = 40 then setOverflow r false else r) =
        [rowC10] := by
      simp [rowC10, setOverflow]
    rw [hmap]
  rw [expand_tasks_def]
  unfold update_overflow_flags
  rw [hdr]
  rw [show engC10.session.cache = [] from rfl,
    show engC10.session.tasks = [tLoad7901] from rfl,
    show engC10.session.exceptions = [] from rfl]
  rw [show kept_rows [] 40 40 = [] from rfl, hrows]
  rw [List.nil_append]
  rw [List.foldl_cons, List.foldl_nil]
  exact hstep

/-- C10: (1) the returned `level` is computed from the exact unrounded
adjusted load; (2) the returned `adjusted_load`, `base_load`,
`count_penalty` and `context_penalty` are rounded to two decimals;
(3) the `is_overflow` flag stamped on in-range rows during expansion
compares the **rounded** `adjusted_load` field to CAP; (4) the weekly
`over_days`/`recovery_days` counts are computed from the rounded
`adjusted_load` values; (5) consequently there is an input whose level is
`CRITICAL` (unrounded 8.001 > 8) while every stamped `is_overflow` flag is
`false` (rounded 8.0 is not > 8). -/
theorem C10_rounding_behaviour :
    (∀ (powf : ℕ → ℚ → ℚ) (e : LBSEngine) (d : ℤ),
      daily_entries e.session.cache d ≠ [] →
        (calculate_daily_load powf e d).level =
          get_warning_level (raw_adjusted_load powf e d)
            (capOf e.config)) ∧
    (∀ (powf : ℕ → ℚ → ℚ) (e : LBSEngine) (d : ℤ),
      daily_entries e.session.cache d ≠ [] →
        (calculate_daily_load powf e d).adjusted_load =
          round2 (raw_adjusted_load powf e d) ∧
        (calculate_daily_load powf e d).base_load =
          round2 (raw_base_load e d) ∧
        (calculate_daily_load powf e d).count_penalty =
          round2 (raw_count_penalty powf e d) ∧
        (calculate_daily_load powf e d).context_penalty =
          round2 (raw_context_penalty e d)) ∧
    (∀ (powf : ℕ → ℚ → ℚ) (e : LBSEngine) (s d now : ℤ)
      (r : LBSDailyCache), r ∈ (expand_tasks powf e s d now).session.cache →
        s ≤ r.target_date → r.target_date ≤ d →
        r.is_overflow = decide ((calculate_daily_load powf
          (expand_tasks powf e s d now) r.target_date).adjusted_load >
            capOf e.config)) ∧
    (∀ (powf : ℕ → ℚ → ℚ) (e : LBSEngine) (s : ℤ),
      (get_weekly_stats powf e s).over_days =
        ((dateRange s (s + 6)).map (fun d =>
          (calculate_daily_load powf e d).adjusted_load)).countP
            (fun l => decide (l > capOf e.config)) ∧
      (get_weekly_stats powf e s).recovery_days =
        ((dateRange s (s + 6)).map (fun d =>
          (calculate_daily_load powf e d).adjusted_load)).countP
            (fun l => decide (l < 4))) ∧
    ((calculate_daily_load pow01 (expand_tasks pow01 engC10 40 40 0)
        40).level = "CRITICAL" ∧
      ∀ r ∈ (expand_tasks pow01 engC10 40 40 0).session.cache,
        r.is_overflow = false) := by
  refine ⟨?_, ?_, ?_, ?_, ?_⟩
  · intro powf e d hne
    exact (calculate_daily_load_nonempty powf e d hne).2.1
  · intro powf e d hne
    obtain ⟨h1, _, h3, h4, h5⟩ := calculate_daily_load_nonempty powf e d hne
    exact ⟨h1, h3, h4, h5⟩
  · intro powf e s d now r hr hs2 hd2
    have hexp : expand_tasks powf e s d now =
        setCache (setCache e (kept_rows e.session.cache s d ++
          expanded_rows e.session.tasks e.session.exceptions s d now))
          ((setCache e (kept_rows e.session.cache s d ++
            expanded_rows e.session.tasks e.session.exceptions s d
              now)).session.cache.map
            (overflow_apply powf (setCache e (kept_rows e.session.cache s d
              ++ expanded_rows e.session.tasks e.session.exceptions s d
                now)) (dateRange s d))) := by
      rw [expand_tasks_def]
      unfold update_overflow_flags
      rw [update_overflow_flags_spec powf _ (dateRange_nodup s d)]
    have hcalc : ∀ x : ℤ, calculate_daily_load powf
        (expand_tasks powf e s d now) x =
        calculate_daily_load powf (setCache e
          (kept_rows e.session.cache s d ++
            expanded_rows e.session.tasks e.session.exceptions s d now))
          x := by
      intro x
      rw [hexp]
      exact calculate_daily_load_map_flag powf _ _
        (overflow_apply_flag_class powf _ _) x
    rw [hexp, setCache_cache] at hr
    obtain ⟨r0, hr0, rfl⟩ := List.mem_map.mp hr
    rw [overflow_apply_target_date] at hs2 hd2
    rw [overflow_apply_target_date]
    have hmem : r0.target_date ∈ dateRange s d :=
      (mem_dateRange s d _).mpr ⟨hs2, hd2⟩
    have happ : overflow_apply powf (setCache e
        (kept_rows e.session.cache s d ++
          expanded_rows e.session.tasks e.session.exceptions s d now))
        (dateRange s d) r0 =
        setOverflow r0 (decide ((calculate_daily_load powf (setCache e
          (kept_rows e.session.cache s d ++
            expanded_rows e.session.tasks e.session.exceptions s d now))
          r0.target_date).adjusted_load >
            capOf (setCache e (kept_rows e.session.cache s d ++
              expanded_rows e.session.tasks e.session.exceptions s d
                now)).config)) := by
      unfold overflow_apply
      rw [if_pos hmem]
    rw [happ, setOverflow_is_overflow]
    rw [hcalc r0.target_date, setCache_config]
  · intro powf e s
    exact ⟨rfl, rfl⟩
  · rw [engC10_expand]
    constructor
    · have hentries : daily_entries [rowC10] 40 = [rowC10] := by
        simp [daily_entries, rowC10]
      have hne : daily_entries (setCache engC10
          [rowC10]).session.cache 40 ≠ [] := by
        rw [setCache_cache, hentries]
        exact List.cons_ne_nil _ _
      rw [(calculate_daily_load_nonempty pow01 _ 40 hne).2.1]
      have hraw : raw_adjusted_load pow01 (setCache engC10 [rowC10]) 40 =
          8001/1000 := by
        unfold raw_adjusted_load raw_base_load raw_count_penalty
          raw_context_penalty unique_contexts_of
        rw [setCache_cache, hentries]
        simp only [List.map_cons, List.map_nil, List.sum_cons,
          List.sum_nil, List.length_cons, List.length_nil]
        norm_num [alphaOf, betaOf, switchCostOf, cfgGet, pow01, rowC10,
          engC10, sessC10]
      rw [hraw]
      unfold get_warning_level
      rw [if_pos (by norm_num [capOf, cfgGet, engC10])]
    · intro r hr
      rw [setCache_cache] at hr
      rcases List.mem_cons.mp hr with rfl | hr'
      · rfl
      · cases hr'

theorem C10_rounding_behaviour_witness :
    (calculate_daily_load pow01 engC1 5).level =
      get_warning_level (raw_adjusted_load pow01 engC1 5)
        (capOf engC1.config) :=
  C10_rounding_behaviour.1 pow01 engC1 5 (by
    simp [daily_entries, engC1, sessC1, rowLoad1111])

end LBS
